import Mathlib

/-!
Verification of the namelist domain model of AutoWRFChem
(`autowrfchem/configuration/autowrf_classlib.py`).

The development shallowly embeds the registry-driven namelist engine:
Python dictionaries become association lists, Python numbers become `ℤ`/`ℚ`
(CPython floats are modelled as exact rationals), Python strings become
`List Char`, exceptions become an explicit error type threaded through every
stateful operation, and the one recursive callback chain
(`set_opt_val` → `_update_opt_domains` → `set_opt_val_no_sect`) is bounded by
an explicit fuel parameter.
-/

deriving instance DecidableEq for Except

namespace AutoWRF

/-- Fortran value types appearing in registry entries
(keys of `_type_checks` / `_type_conversions` / `_type_mappings`). -/
inductive RegType where
  | integer
  | real
  | logical
  | character
deriving DecidableEq

/-- Exception kinds raised by the embedded code: the `NamelistError` hierarchy
and `RegistryError` hierarchy of `autowrf_classlib.py`, plus the Python
built-in exceptions the code can let escape.  `recursionError` stands for
Python exhausting its recursion limit (used when the explicit fuel runs out).
-/
inductive PyErr where
  | namelistError
  | namelistReadingError
  | namelistFormatError
  | namelistRuntimeError
  | namelistKeyError
  | namelistTypeError
  | namelistValueError
  | registryIOError
  | registryParsingError
  | keyError
  | indexError
  | typeError
  | valueError
  | attributeError
  | runtimeError
  | notImplementedError
  | zeroDivisionError
  | recursionError
deriving DecidableEq

/-- Python runtime values stored in a namelist after the startup
`_correct_opt_types` pass: `int`, `float` (modelled exactly as `ℚ`),
`bool` and `str`. -/
inductive PyVal where
  | int (z : ℤ)
  | real (q : ℚ)
  | bool (b : Bool)
  | str (s : List Char)
deriving DecidableEq

/-- Numeric view of a Python value: Python compares `int`, `float` and `bool`
numerically across types (`True == 1`, `1 == 1.0`). -/
def PyVal.numView : PyVal → Option ℚ
  | .int z => some (z : ℚ)
  | .real q => some q
  | .bool b => some (cond b 1 0)
  | .str _ => none

/-- Python `==` on the values we model: numeric kinds compare by value,
strings compare by contents, numeric never equals string. -/
def pyEq (a b : PyVal) : Bool :=
  match a.numView, b.numView with
  | some x, some y => x = y
  | _, _ =>
    match a, b with
    | .str s, .str t => s = t
    | _, _ => false

/-- Python `==` on two lists (element-wise `pyEq`, lengths must agree). -/
def pyEqList : List PyVal → List PyVal → Bool
  | [], [] => true
  | a :: as_, b :: bs => pyEq a b && pyEqList as_ bs
  | _, _ => false

/-! ### Python string primitives -/

/-- Decimal value of a digit list (most significant first). -/
def digitsVal (ds : List Char) : ℕ :=
  ds.foldl (fun a c => 10 * a + (c.toNat - '0'.toNat)) 0

/-- Python `str.strip()` with no argument: remove leading and trailing
whitespace. -/
def pyStrip (s : List Char) : List Char :=
  ((s.dropWhile Char.isWhitespace).reverse.dropWhile Char.isWhitespace).reverse

/-- Python `str.strip(chars)`: remove leading and trailing characters drawn
from `chars`. -/
def pyStripChars (chars : List Char) (s : List Char) : List Char :=
  ((s.dropWhile chars.contains).reverse.dropWhile chars.contains).reverse

/-- Lower-casing of a Python string (`str.lower`), restricted to the ASCII
names the code handles. -/
def lowerChars (s : List Char) : List Char := s.map Char.toLower

/-- Parse an optionally signed run of decimal digits, as accepted by Python
`int(...)` after whitespace stripping (PEP 515 underscores are not used by
this code base and are not modelled). -/
def parseSignedDigits : List Char → Option ℤ
  | [] => none
  | '+' :: ds => if ds ≠ [] ∧ ds.all Char.isDigit then some (digitsVal ds : ℤ) else none
  | '-' :: ds => if ds ≠ [] ∧ ds.all Char.isDigit then some (-(digitsVal ds : ℤ)) else none
  | ds => if ds.all Char.isDigit then some (digitsVal ds : ℤ) else none

/-- Python `int(string)`: strip whitespace, then an optionally signed
digit run; anything else raises `ValueError`. -/
def pyIntOfChars (s : List Char) : Except PyErr ℤ :=
  match parseSignedDigits (pyStrip s) with
  | some z => .ok z
  | none => .error .valueError

/-- Unsigned decimal mantissa accepted by Python `float(...)`:
`digits`, `digits.`, `digits.digits` or `.digits` (at least one digit). -/
def parseUnsignedDec (s : List Char) : Option ℚ :=
  let intPart := s.takeWhile Char.isDigit
  let rest := s.drop intPart.length
  match rest with
  | [] => if intPart = [] then none else some (digitsVal intPart : ℚ)
  | '.' :: frac =>
    if frac.all Char.isDigit ∧ (intPart ≠ [] ∨ frac ≠ []) then
      some ((digitsVal intPart : ℚ) + (digitsVal frac : ℚ) / (10 : ℚ) ^ frac.length)
    else none
  | _ => none

/-- Python `float(string)` on finite decimal literals: whitespace, optional
sign, mantissa, optional exponent.  Note that a plain digit run such as
`"5"` is accepted — `float("5")` succeeds in Python.  (The special literals
`inf`/`nan` are not representable in the exact model and are not used by the
code base; they are left unmodelled.) -/
def pyFloatOfChars (s0 : List Char) : Except PyErr ℚ :=
  let s := pyStrip s0
  let signAndRest : ℚ × List Char :=
    match s with
    | '+' :: t => (1, t)
    | '-' :: t => (-1, t)
    | t => (1, t)
  let sign := signAndRest.1
  let s1 := signAndRest.2
  let mant := s1.takeWhile (fun c => c ≠ 'e' ∧ c ≠ 'E')
  let rest := s1.drop mant.length
  match rest with
  | [] =>
    match parseUnsignedDec mant with
    | some m => .ok (sign * m)
    | none => .error .valueError
  | _ :: expPart =>
    match parseSignedDigits expPart, parseUnsignedDec mant with
    | some e, some m => .ok (sign * m * (10 : ℚ) ^ e)
    | _, _ => .error .valueError

/-- Truncation toward zero, the behaviour of Python `int(float)`. -/
def ratTrunc (q : ℚ) : ℤ := if 0 ≤ q then ⌊q⌋ else ⌈q⌉

/-- Python `int(value)` on the modelled value kinds.  `int` and `bool` pass
through (`True` → 1), floats truncate toward zero, strings must be signed
digit runs. -/
def pyIntVal : PyVal → Except PyErr PyVal
  | .int z => .ok (.int z)
  | .bool b => .ok (.int (cond b 1 0))
  | .real q => .ok (.int (ratTrunc q))
  | .str s => (pyIntOfChars s).map .int

/-- Python `float(value)` on the modelled value kinds. -/
def pyFloatVal : PyVal → Except PyErr PyVal
  | .int z => .ok (.real (z : ℚ))
  | .bool b => .ok (.real (cond b 1 0))
  | .real q => .ok (.real q)
  | .str s => (pyFloatOfChars s).map .real

/-- Embeds `_to_bool`: a `bool` passes through; a string must lower-case to
one of `t`/`true`/`.true.` or `f`/`false`/`.false.` (else `ValueError`); any
other value hits `val.lower()` and raises `AttributeError`. -/
def pyToBool : PyVal → Except PyErr PyVal
  | .bool b => .ok (.bool b)
  | .str s =>
    let l := lowerChars s
    if l = "t".data ∨ l = "true".data ∨ l = ".true.".data then .ok (.bool true)
    else if l = "f".data ∨ l = "false".data ∨ l = ".false.".data then .ok (.bool false)
    else .error .valueError
  | _ => .error .attributeError

/-- Python `str(value)`.  Only the identity case (on values that are already
strings) is load-bearing in this development; the renderings of numeric
values are simple stand-ins (CPython's shortest-round-trip float repr is not
reproduced). -/
def pyStrOfVal : PyVal → List Char
  | .str s => s
  | .int z => (toString z).data
  | .bool b => (cond b "True" "False").data
  | .real q => (toString q.num).data ++ ('/' :: (toString q.den).data)

/-- Embeds the `_type_conversions` dispatch table:
`logical` → `_to_bool`, `integer` → `int`, `real` → `float`,
`character` → `str`. -/
def pyConvert : RegType → PyVal → Except PyErr PyVal
  | .integer, v => pyIntVal v
  | .real, v => pyFloatVal v
  | .logical, v => pyToBool v
  | .character, v => .ok (.str (pyStrOfVal v))

/-- Embeds the `_type_mappings` `isinstance` checks used by
`_conform_option_value` when type conversion is off.  Python's `bool` is a
subclass of `int`, so a `bool` passes the `integer` check. -/
def pyIsinstance : RegType → PyVal → Bool
  | .integer, .int _ => true
  | .integer, .bool _ => true
  | .real, .real _ => true
  | .logical, .bool _ => true
  | .character, .str _ => true
  | _, _ => false

/-! ### Python list primitives -/

/-- Effective upper bound of the Python slice `l[:n]` for a list of length
`len` (negative indices count from the end, out-of-range clamps). -/
def pySliceUpper (len : ℕ) (n : ℤ) : ℕ :=
  if 0 ≤ n then min n.toNat len else len - min (-n).toNat len

/-- Python `l[:n]`. -/
def pyTakeSlice {α : Type} (l : List α) (n : ℤ) : List α :=
  l.take (pySliceUpper l.length n)

/-- Python `l[-1:]`: the last element as a one-element list, `[]` when `l`
is empty. -/
def lastSlice {α : Type} (l : List α) : List α :=
  l.drop (l.length - 1)

/-- Python `l * k` for an integer `k` (empty when `k ≤ 0`). -/
def listMul {α : Type} (l : List α) (k : ℤ) : List α :=
  (List.replicate k.toNat l).flatten

/-- Python `l[i]`: negative indices wrap once from the end; anything still
out of range raises `IndexError`. -/
def pyListGet {α : Type} (l : List α) (i : ℤ) : Except PyErr α :=
  let j : ℤ := if i < 0 then i + l.length else i
  if h : 0 ≤ j ∧ j.toNat < l.length then .ok (l.get ⟨j.toNat, h.2⟩)
  else .error .indexError

/-- Python `l[i] = v` on a list: same index normalisation as `pyListGet`,
`IndexError` when out of range. -/
def pyListSet {α : Type} (l : List α) (i : ℤ) (v : α) : Except PyErr (List α) :=
  let j : ℤ := if i < 0 then i + l.length else i
  if 0 ≤ j ∧ j.toNat < l.length then .ok (l.set j.toNat v)
  else .error .indexError

/-- Clamping of one bound of a Python slice by `slice.indices(n)`
(`none` encodes an omitted bound, which becomes `dflt`). -/
def pyClampIndex (n : ℕ) (i : Option ℤ) (dflt : ℕ) : ℕ :=
  match i with
  | none => dflt
  | some i => if 0 ≤ i then min i.toNat n else n - min (-i).toNat n

/-- Length of the index range of the Python slice `slice(a, b)` over a list
of length `n` (step 1): `len(range(*slice(a,b).indices(n)))`. -/
def pySliceLength (n : ℕ) (a b : Option ℤ) : ℕ :=
  pyClampIndex n b n - pyClampIndex n a 0

/-- Python slice assignment `l[a:b] = vs` (step 1): replace the addressed
range by `vs`. -/
def pySetSlice (l : List PyVal) (a b : Option ℤ) (vs : List PyVal) : List PyVal :=
  let lo := pyClampIndex l.length a 0
  let hi := max lo (pyClampIndex l.length b l.length)
  l.take lo ++ vs ++ l.drop hi

/-! ### Registry entries and the namelist state

Python's insertion-ordered dictionaries become association lists; the states
built by the theorems below always carry pairwise-distinct keys, matching what
a real `dict` can hold. -/

/-- One `rconfig` entry as stored by `Registry._add_rconfig` or synthesized by
`WPSPseudoRegistry._parse_reg_file`, trimmed to the fields the namelist engine
reads: `type` and `num_entries` (the untouched `symbol`, `default` and
`how_set` fields are dropped).  `num_entries` is kept as the literal string
the code compares against (`"1"`, `"max_domains"` or `"multiple"`). -/
structure RegEntry where
  rtype : RegType
  numEntries : String
deriving DecidableEq

/-- Shorthand for a per-domain entry of a given type. -/
def perDomainEntry (t : RegType) : RegEntry := ⟨t, "max_domains"⟩

/-- Shorthand for a scalar (`num_entries = "1"`) entry of a given type. -/
def scalarEntry (t : RegType) : RegEntry := ⟨t, "1"⟩

/-- Registry `rconfig` table: option name → entry. -/
abbrev RegTable := List (String × RegEntry)

/-- Lower-casing for option names (`str.lower` on ASCII identifiers). -/
def strLower (s : String) : String := ⟨s.data.map Char.toLower⟩

/-- Embeds `Registry._find_entry_case_insensitive` (with
`error_if_multiple=True`) restricted to the `rconfig` entry type, the only
type the namelist engine consults: collect every entry whose key matches
case-insensitively, raise `KeyError` on zero or several matches. -/
def lookupRegEntry (reg : RegTable) (name : String) : Except PyErr RegEntry :=
  match reg.filter (fun p => strLower p.1 = strLower name) with
  | [p] => .ok p.2
  | _ => .error .keyError

/-- One namelist section: option name → stored list of values.  After the
startup `_correct_opt_types` pass every stored value is a list, which is the
state space this embedding works in. -/
abbrev NLSection := List (String × List PyVal)

/-- The `Namelist.opts` structure: section name → section. -/
abbrev Opts := List (String × NLSection)

/-- State of one `Namelist` object.  `callbacks` lists the option names whose
registered callback is `_update_opt_domains` — the only callback the code
base registers (`WrfNamelist.callbacks = WpsNamelist.callbacks =
{'max_dom': _update_opt_domains}`).  `updateFddaEnd` is the
`WrfNamelist.update_fdda_end` instance flag. -/
structure NL where
  opts : Opts
  registry : RegTable
  callbacks : List String
  updateFddaEnd : Bool
deriving DecidableEq

/-- Result of a stateful operation: Python exceptions do not roll back object
mutations, so the error case carries the state at raise time. -/
inductive Res (α : Type) where
  | ok (a : α) (s : NL)
  | err (e : PyErr) (s : NL)
deriving DecidableEq

/-- State returned by an operation, error or not. -/
def Res.state {α : Type} : Res α → NL
  | .ok _ s => s
  | .err _ s => s

/-- True when the operation raised. -/
def Res.isErr {α : Type} : Res α → Bool
  | .ok _ _ => false
  | .err _ _ => true

/-- Lookup in an association list (first match, like a Python dict read). -/
def lookupA {β : Type} (l : List (String × β)) (k : String) : Option β :=
  (l.find? (fun p => p.1 = k)).map Prod.snd

/-- Write to an existing key of an association list (Python
`d[k] = v` where `k in d`; the engine only ever assigns existing options). -/
def setA {β : Type} (l : List (String × β)) (k : String) (v : β) : List (String × β) :=
  l.map (fun p => if p.1 = k then (p.1, v) else p)

/-- Read `self.opts[sect][opt]`. -/
def getOpt (o : Opts) (sect opt : String) : Option (List PyVal) :=
  (lookupA o sect).bind (fun sec => lookupA sec opt)

/-- Write `self.opts[sect][opt] = vals` (for an existing key). -/
def setOpt (o : Opts) (sect opt : String) (vals : List PyVal) : Opts :=
  o.map (fun p => if p.1 = sect then (p.1, setA p.2 opt vals) else p)

/-- Option keys in iteration order, as produced by `Namelist.IterOpts`
(section by section, option by option). -/
def optKeys (o : Opts) : List (String × String) :=
  o.flatMap (fun p => p.2.map (fun q => (p.1, q.1)))

/-! ### Namelist read operations -/

/-- Embeds `Namelist.find_opt_section`: the unique section containing the
option, `none` when absent, `NamelistKeyError` when it appears in several
sections. -/
def findOptSection (s : NL) (opt : String) : Except PyErr (Option String) :=
  match (s.opts.filter (fun p => (lookupA p.2 opt).isSome)).map Prod.fst with
  | [] => .ok none
  | [sect] => .ok (some sect)
  | _ => .error .namelistKeyError

/-- Shared head of `Namelist.get_opt_val`: `IsOptInSection` raises `KeyError`
for a missing section, `get_opt_val` raises `KeyError` for a missing option,
then the stored list is fetched. -/
def getStoredList (s : NL) (sect opt : String) : Except PyErr (List PyVal) :=
  match lookupA s.opts sect with
  | none => .error .keyError
  | some sec =>
    match lookupA sec opt with
    | none => .error .keyError
    | some v => .ok v

/-- Embeds `Namelist.is_option_per_domain`. -/
def isOptionPerDomain (s : NL) (opt : String) : Except PyErr Bool :=
  (lookupRegEntry s.registry opt).map (fun e => e.numEntries = "max_domains")

/-- Embeds the `Namelist.max_domains` property,
`self.get_opt_val_no_sect('max_dom', domainnum=1)`, specialised to its
default `match_n_domains=False`/`as_strings=False` path (written out here to
break the definitional cycle with `match_option_length_to_domains`, which
never runs on this path). -/
def maxDomainsVal (s : NL) : Except PyErr PyVal :=
  match findOptSection s "max_dom" with
  | .error e => .error e
  | .ok none => .error .keyError
  | .ok (some sect) =>
    match getStoredList s sect "max_dom" with
    | .error e => .error e
    | .ok val =>
      if (0 : ℤ) > (val.length : ℤ) then .error .namelistError
      else pyListGet val 0

/-- The `max_domains` value used as a Python integer in arithmetic and list
contexts (`bool` coerces; any other type would make the surrounding Python
arithmetic raise `TypeError`). -/
def maxDomains (s : NL) : Except PyErr ℤ :=
  match maxDomainsVal s with
  | .error e => .error e
  | .ok (.int z) => .ok z
  | .ok (.bool b) => .ok (cond b 1 0)
  | .ok _ => .error .typeError

/-- Embeds `Namelist.match_option_length_to_domains` on a stored (list)
value: pad by repeating the last element up to `max_dom`, else optionally
raise when too long (`error_if_too_long`) or truncate (`trim_extra`). -/
def matchOptionLengthToDomains {α : Type} (s : NL) (optval : List α)
    (errorIfTooLong trimExtra : Bool) : Except PyErr (List α) :=
  match maxDomains s with
  | .error e => .error e
  | .ok n =>
    if (optval.length : ℤ) < n then
      .ok (optval ++ listMul (lastSlice optval) (n - optval.length))
    else if errorIfTooLong ∧ (optval.length : ℤ) > n then
      .error .namelistValueError
    else if trimExtra then .ok (pyTakeSlice optval n)
    else .ok optval

/-- Result of `get_opt_val`: a single domain's value or the whole list. -/
inductive GetRes where
  | one (v : PyVal)
  | many (l : List PyVal)
deriving DecidableEq

/-- Embeds `Namelist.get_opt_val`.  The 1-based `domainnum` is decremented
first; `match_n_domains` reconciles the list length for per-domain options;
`as_strings` maps `str` over the list; finally the source guards the index
with `domainnum > len(val)` — note `>` rather than `>=`, so an index equal to
the length slips through to Python's own `IndexError`. -/
def getOptVal (s : NL) (sect opt : String) (domainnum : Option ℤ)
    (matchN asStrings : Bool) : Except PyErr GetRes :=
  let dn := domainnum.map (fun d => d - 1)
  match getStoredList s sect opt with
  | .error e => .error e
  | .ok val0 =>
    let valM : Except PyErr (List PyVal) :=
      if matchN then
        match isOptionPerDomain s opt with
        | .error e => .error e
        | .ok true => matchOptionLengthToDomains s val0 false true
        | .ok false => .ok val0
      else .ok val0
    match valM with
    | .error e => .error e
    | .ok val1 =>
      let val := if asStrings then val1.map (fun v => .str (pyStrOfVal v)) else val1
      match dn with
      | none => .ok (.many val)
      | some d =>
        if d > (val.length : ℤ) then .error .namelistError
        else
          match pyListGet val d with
          | .error e => .error e
          | .ok v => .ok (.one v)

/-- Embeds `Namelist.get_opt_val_no_sect` (a `None` section from
`find_opt_section` makes `IsOptInSection` raise `KeyError`). -/
def getOptValNoSect (s : NL) (opt : String) (domainnum : Option ℤ)
    (matchN asStrings : Bool) : Except PyErr GetRes :=
  match findOptSection s opt with
  | .error e => .error e
  | .ok none => .error .keyError
  | .ok (some sect) => getOptVal s sect opt domainnum matchN asStrings

/-- Embeds `Namelist.check_value_type`: try the `_type_conversions` function
for the option's registry type on each value; `True` where it succeeds. -/
def checkValueType (s : NL) (opt : String) (optval : List PyVal) :
    Except PyErr (List Bool) :=
  match lookupRegEntry s.registry opt with
  | .error e => .error e
  | .ok entry => .ok (optval.map (fun v => (pyConvert entry.rtype v).isOk))

/-- Input to `set_opt_val`: the Python callers pass either a bare scalar or a
list of values. -/
inductive PyIn where
  | scalar (v : PyVal)
  | list (l : List PyVal)
deriving DecidableEq

/-- Embeds `Namelist._conform_option_value`: list inputs are resized only
when both `resize` and per-domain; scalar inputs are wrapped (through
`match_option_length_to_domains` when per-domain, regardless of `resize`);
then values are type-converted (`convert_type`) or `isinstance`-checked;
finally the length must equal `max_dom` (per-domain) or 1. -/
def conformOptionValue (s : NL) (opt : String) (valsIn : PyIn)
    (convertType resize : Bool) : Except PyErr (List PyVal) :=
  match lookupRegEntry s.registry opt with
  | .error e => .error e
  | .ok entry =>
    let isPD := entry.numEntries = "max_domains"
    let vals0 : Except PyErr (List PyVal) :=
      match valsIn with
      | .list l =>
        if resize ∧ isPD then matchOptionLengthToDomains s l false true else .ok l
      | .scalar v =>
        if isPD then matchOptionLengthToDomains s [v] false true else .ok [v]
    match vals0 with
    | .error e => .error e
    | .ok vals1 =>
      let valsT : Except PyErr (List PyVal) :=
        if convertType then vals1.mapM (pyConvert entry.rtype)
        else if vals1.any (fun v => ¬ pyIsinstance entry.rtype v) then
          .error .namelistTypeError
        else .ok vals1
      match valsT with
      | .error e => .error e
      | .ok vals =>
        match (if isPD then maxDomains s else .ok 1) with
        | .error e => .error e
        | .ok nDomains =>
          if (vals.length : ℤ) < nDomains then .error .namelistFormatError
          else if (vals.length : ℤ) > nDomains then .error .namelistFormatError
          else .ok vals

/-! ### The mutation point: `set_opt_val` and the `max_dom` callback

`Namelist.set_opt_val` is the single mutation point; after storing the new
value it invokes any callback registered for the option.  The one registered
callback, `_update_opt_domains`, walks every option and re-issues
`set_opt_val_no_sect` for per-domain options, so the four functions are
mutually recursive.  `fuel` bounds the callback depth (Python's recursion
limit plays the same role); every theorem below supplies enough fuel that it
is never exhausted. -/

/-- Loop body of `_update_opt_domains`, parameterised by the
`set_opt_val_no_sect` callee (tied below with structural fuel): for each
option (reading the live dict), skip it when the registry lookup raises
`KeyError` (missing or ambiguous entry — both are caught), skip
non-per-domain options, and re-store per-domain options through
`match_option_length_to_domains` and `set_opt_val_no_sect`. -/
def updateLoopWith (setNoSect : NL → String → PyIn → Res (List PyVal))
    (trimExtra : Bool) : List (String × String) → NL → Res Unit
  | [], s => .ok () s
  | (sect, opt) :: rest, s =>
    match getOpt s.opts sect opt with
    | none => .err .keyError s
    | some optval =>
      match lookupRegEntry s.registry opt with
      | .error _ => updateLoopWith setNoSect trimExtra rest s
      | .ok entry =>
        if entry.numEntries = "max_domains" then
          match matchOptionLengthToDomains s optval false trimExtra with
          | .error e => .err e s
          | .ok newval =>
            match setNoSect s opt (.list newval) with
            | .err e s' => .err e s'
            | .ok _ s' => updateLoopWith setNoSect trimExtra rest s'
        else updateLoopWith setNoSect trimExtra rest s

/-- Embeds `_update_opt_domains(namelist, trim_extra)` given the
`set_opt_val_no_sect` callee: evaluate `namelist.max_domains` (its value is
unused but evaluating it can raise), then walk every option in `IterOpts`
order. -/
def updateOptDomainsWith (setNoSect : NL → String → PyIn → Res (List PyVal))
    (trimExtra : Bool) (s : NL) : Res Unit :=
  match maxDomains s with
  | .error e => .err e s
  | .ok _ => updateLoopWith setNoSect trimExtra (optKeys s.opts) s

/-- Embeds `Namelist.set_opt_val`: check the option exists in the section
(`NamelistKeyError`), conform the value, store it, then run the registered
callback (whose inner `set_opt_val_no_sect` calls recurse with one unit of
fuel less). -/
def setOptVal (fuel : ℕ) (s : NL) (sect opt : String) (valsIn : PyIn)
    (resizeIfNeeded convertTypeIfNeeded : Bool) : Res (List PyVal) :=
  match lookupA s.opts sect with
  | none => .err .namelistKeyError s
  | some sec =>
    if (lookupA sec opt).isNone then .err .namelistKeyError s
    else
      match conformOptionValue s opt valsIn convertTypeIfNeeded resizeIfNeeded with
      | .error e => .err e s
      | .ok vals =>
        let s' : NL := { s with opts := setOpt s.opts sect opt vals }
        if s.callbacks.contains opt then
          match fuel with
          | 0 => .err .recursionError s'
          | f + 1 =>
            match
              updateOptDomainsWith
                (fun st o vi =>
                  match findOptSection st o with
                  | .error e => .err e st
                  | .ok none => .err .namelistKeyError st
                  | .ok (some sct) => setOptVal f st sct o vi false false)
                true s'
            with
            | .err e s2 => .err e s2
            | .ok _ s2 => .ok vals s2
        else .ok vals s'

/-- Embeds `Namelist.set_opt_val_no_sect`: locate the unique section, then
defer to `set_opt_val`. -/
def setOptValNoSect (fuel : ℕ) (s : NL) (opt : String) (valsIn : PyIn)
    (resizeIfNeeded convertTypeIfNeeded : Bool) : Res (List PyVal) :=
  match findOptSection s opt with
  | .error e => .err e s
  | .ok none => .err .namelistKeyError s
  | .ok (some sect) => setOptVal fuel s sect opt valsIn resizeIfNeeded convertTypeIfNeeded

/-- Standalone `_update_opt_domains` (as run from the startup hooks). -/
def updateOptDomains (fuel : ℕ) (trimExtra : Bool) (s : NL) : Res Unit :=
  updateOptDomainsWith (fun st o vi => setOptValNoSect fuel st o vi false false)
    trimExtra s

/-! ### The dx/dy synchronization transforms -/

/-- Embeds `_wrf2wps_dxdy`: keep only the coarse domain's value,
`dxy[:1]` (the namelist argument is unused by the source). -/
def wrf2wpsDxdy (dxy : List PyVal) : List PyVal :=
  pyTakeSlice dxy 1

/-- Working state of `_wps2wrf_dxdy`: the `dxy_out` scratch list
(initialised to the `-1` sentinel) and the `domain_trail` cycle guard. -/
structure DxyState where
  out : List ℚ
  trail : List ℤ
deriving DecidableEq

/-- Embeds the inner `set_domain_dxy` closure of `_wps2wrf_dxdy`:
memoised recursive computation of one domain's grid spacing from its
parent's spacing and the nest ratio, guarded against circular parent chains
(`NamelistRuntimeError`).  `fuel` bounds the recursion depth; the driver
passes enough that cycle detection or an index error always fires first
(the interactive `pdb.set_trace()` the source runs before recursing is a
no-op here). -/
def setDomainDxy (parents ratios : List PyVal) (fuel : ℕ) (st : DxyState)
    (domainNum : ℤ) : Except PyErr DxyState :=
  let ind := domainNum - 1
  match pyListGet st.out ind with
  | .error e => .error e
  | .ok cur =>
    if 0 ≤ cur then .ok st
    else if st.trail.contains domainNum then .error .namelistRuntimeError
    else
      let st1 : DxyState := { st with trail := st.trail ++ [domainNum] }
      match pyListGet parents ind with
      | .error e => .error e
      | .ok (.int thisParent) =>
        let parentInd := thisParent - 1
        match pyListGet st1.out parentInd with
        | .error e => .error e
        | .ok pdxy0 =>
          let afterRec : Except PyErr DxyState :=
            if pdxy0 < 0 then
              match fuel with
              | 0 => .error .recursionError
              | f + 1 => setDomainDxy parents ratios f st1 thisParent
            else .ok st1
          match afterRec with
          | .error e => .error e
          | .ok st2 =>
            match pyListGet st2.out parentInd with
            | .error e => .error e
            | .ok parentDxy =>
              match pyListGet ratios ind with
              | .error e => .error e
              | .ok rv =>
                match rv.numView with
                | none => .error .typeError
                | some r =>
                  if r = 0 then .error .zeroDivisionError
                  else
                    match pyListSet st2.out ind (parentDxy / r) with
                    | .error e => .error e
                    | .ok out2 => .ok ⟨out2, st2.trail.dropLast⟩
      | .ok _ => .error .typeError

/-- Driver loop of `_wps2wrf_dxdy`:
`for i in range(n_dom): set_domain_dxy(i+1)`. -/
def wps2wrfLoop (parents ratios : List PyVal) (fuel : ℕ) :
    List ℕ → DxyState → Except PyErr DxyState
  | [], st => .ok st
  | i :: rest, st =>
    match setDomainDxy parents ratios fuel st ((i : ℤ) + 1) with
    | .error e => .error e
    | .ok st' => wps2wrfLoop parents ratios fuel rest st'

/-- Embeds `_wps2wrf_dxdy`: expand the WPS coarse-domain grid spacing into a
per-domain WRF list by walking the `parent_id`/`parent_grid_ratio` structure
of the WPS namelist.  The recursion fuel `2*n+2` exceeds the longest possible
`domain_trail` (every recursive step appends a fresh domain number drawn from
the at most `2n` integers that index `dxy_out` without an `IndexError`), so
exhausting it is unreachable — cycle detection or an exception always fires
first, exactly as in the unbounded Python recursion. -/
def wps2wrfDxdy (dxy : List PyVal) (s : NL) : Except PyErr (List PyVal) :=
  match maxDomains s with
  | .error e => .error e
  | .ok nDom =>
    match getOptValNoSect s "parent_id" none false false with
    | .error e => .error e
    | .ok (.one _) => .error .typeError
    | .ok (.many parents) =>
      match getOptValNoSect s "parent_grid_ratio" none false false with
      | .error e => .error e
      | .ok (.one _) => .error .typeError
      | .ok (.many ratios) =>
        let out0 : List ℚ := List.replicate nDom.toNat (-1)
        match pyListGet dxy 0 with
        | .error e => .error e
        | .ok v0 =>
          match pyFloatVal v0 with
          | .error e => .error e
          | .ok (.real q0) =>
            match pyListSet out0 0 q0 with
            | .error e => .error e
            | .ok out1 =>
              match wps2wrfLoop parents ratios (2 * nDom.toNat + 2)
                  (List.range nDom.toNat) ⟨out1, []⟩ with
              | .error e => .error e
              | .ok st => .ok (st.out.map PyVal.real)
          | .ok _ => .error .typeError

/-! ### Dates and the model time period

The code uses Python's `datetime` library.  We model a `datetime.datetime`
with whole-second resolution as its six components, validity as the range
checks CPython's constructor performs, and `datetime` subtraction through the
proleptic-Gregorian ordinal (CPython's `date.toordinal`). -/

/-- A `datetime.datetime` value (microseconds are always zero in this code
base). -/
structure Date6 where
  year : ℤ
  month : ℤ
  day : ℤ
  hour : ℤ
  minute : ℤ
  second : ℤ
deriving DecidableEq

/-- Gregorian leap-year rule. -/
def isLeapYear (y : ℤ) : Bool :=
  y % 4 = 0 ∧ (y % 100 ≠ 0 ∨ y % 400 = 0)

/-- Days in a month of the proleptic Gregorian calendar. -/
def daysInMonth (y m : ℤ) : ℤ :=
  if m = 2 then (if isLeapYear y then 29 else 28)
  else if m = 4 ∨ m = 6 ∨ m = 9 ∨ m = 11 then 30
  else 31

/-- Validity as checked by the `datetime.datetime` constructor
(`ValueError` otherwise). -/
def dateValid (d : Date6) : Prop :=
  1 ≤ d.year ∧ d.year ≤ 9999 ∧ 1 ≤ d.month ∧ d.month ≤ 12 ∧
    1 ≤ d.day ∧ d.day ≤ daysInMonth d.year d.month ∧
    0 ≤ d.hour ∧ d.hour < 24 ∧ 0 ≤ d.minute ∧ d.minute < 60 ∧
    0 ≤ d.second ∧ d.second < 60

instance (d : Date6) : Decidable (dateValid d) := by
  unfold dateValid; infer_instance

/-- Days before January 1st of a year, counted from 0001-01-01
(CPython `datetime._days_before_year`). -/
def daysBeforeYear (y : ℤ) : ℤ :=
  (y - 1) * 365 + (y - 1).ediv 4 - (y - 1).ediv 100 + (y - 1).ediv 400

/-- Days in the year before the first of a month
(CPython `datetime._days_before_month`). -/
def daysBeforeMonth (y m : ℤ) : ℤ :=
  ((List.range 12).filter (fun i => ((i : ℤ) + 1) < m)).foldl
    (fun a i => a + daysInMonth y ((i : ℤ) + 1)) 0

/-- Proleptic Gregorian ordinal of a date (CPython `date.toordinal`;
0001-01-01 is day 1). -/
def toOrdinal (d : Date6) : ℤ :=
  daysBeforeYear d.year + daysBeforeMonth d.year d.month + d.day

/-- Seconds since midnight. -/
def secondsOfDay (d : Date6) : ℤ :=
  d.hour * 3600 + d.minute * 60 + d.second

/-- Total seconds of the `datetime` difference `b - a`. -/
def dtDiffSeconds (a b : Date6) : ℤ :=
  (toOrdinal b - toOrdinal a) * 86400 + (secondsOfDay b - secondsOfDay a)

/-- The `days` attribute of a normalised Python `timedelta` holding `t`
seconds (floor division). -/
def tdDays (t : ℤ) : ℤ := Int.fdiv t 86400

/-- The `seconds` attribute of a normalised Python `timedelta`
(always in `[0, 86400)`). -/
def tdSeconds (t : ℤ) : ℤ := Int.fmod t 86400

/-- Embeds `Namelist.TimedeltaHMS`: split a timedelta's `seconds` attribute
into hours, minutes and seconds (floor division and Python `%`). -/
def timedeltaHMS (secs : ℤ) : ℤ × ℤ × ℤ :=
  let hour := Int.fdiv secs 3600
  let r := Int.emod secs 3600
  let minutes := Int.fdiv r 60
  let s := Int.emod r 60
  (hour, minutes, s)

/-- Read one `time_control` field as `int(self.get_opt_val("time_control",
name, domainnum=1))`. -/
def wrfReadTC (s : NL) (name : String) : Except PyErr ℤ :=
  match getOptVal s "time_control" name (some 1) false false with
  | .error e => .error e
  | .ok (.many _) => .error .typeError
  | .ok (.one v) =>
    match pyIntVal v with
    | .error e => .error e
    | .ok (.int z) => .ok z
    | .ok _ => .error .typeError

/-- Embeds `WrfNamelist.get_time_period`: read the six start and six end
fields of domain 1 and build two `datetime`s (invalid components raise
`ValueError`, as the `datetime` constructor does). -/
def wrfGetTimePeriod (s : NL) : Except PyErr (Date6 × Date6) :=
  match wrfReadTC s "start_year", wrfReadTC s "start_month", wrfReadTC s "start_day" with
  | .ok sy, .ok sm, .ok sd =>
    match wrfReadTC s "start_hour", wrfReadTC s "start_minute", wrfReadTC s "start_second" with
    | .ok shr, .ok smin, .ok ssec =>
      match wrfReadTC s "end_year", wrfReadTC s "end_month", wrfReadTC s "end_day" with
      | .ok ey, .ok em, .ok ed =>
        match wrfReadTC s "end_hour", wrfReadTC s "end_minute", wrfReadTC s "end_second" with
        | .ok ehr, .ok emin, .ok esec =>
          let startD : Date6 := ⟨sy, sm, sd, shr, smin, ssec⟩
          let endD : Date6 := ⟨ey, em, ed, ehr, emin, esec⟩
          if dateValid startD then
            if dateValid endD then .ok (startD, endD) else .error .valueError
          else .error .valueError
        | .error e, _, _ => .error e
        | _, .error e, _ => .error e
        | _, _, .error e => .error e
      | .error e, _, _ => .error e
      | _, .error e, _ => .error e
      | _, _, .error e => .error e
    | .error e, _, _ => .error e
    | _, .error e, _ => .error e
    | _, _, .error e => .error e
  | .error e, _, _ => .error e
  | _, .error e, _ => .error e
  | _, _, .error e => .error e

/-- Embeds `WrfNamelist.GetRunTime(runtime_unit="hours")`: the four run
fields read as floats, combined in days, then scaled to hours. -/
def wrfGetRunTimeHours (s : NL) : Except PyErr ℚ :=
  let rd : String → Except PyErr ℚ := fun name =>
    match getOptVal s "time_control" name (some 1) false false with
    | .error e => .error e
    | .ok (.many _) => .error PyErr.typeError
    | .ok (.one v) =>
      match pyFloatVal v with
      | .error e => .error e
      | .ok (.real q) => .ok q
      | .ok _ => .error PyErr.typeError
  match rd "run_days", rd "run_hours", rd "run_minutes", rd "run_seconds" with
  | .ok d, .ok h, .ok m, .ok sec =>
    .ok ((d + h / 24 + m / (24 * 60) + sec / (24 * 60 * 60)) * 24)
  | .error e, _, _, _ => .error e
  | _, .error e, _, _ => .error e
  | _, _, .error e, _ => .error e
  | _, _, _, .error e => .error e

/-- Sequential `set_opt_val("time_control", name, value)` calls, in order;
an exception aborts the rest, keeping the state reached so far. -/
def setManyTC (fuel : ℕ) (s : NL) : List (String × ℤ) → Res Unit
  | [] => .ok () s
  | (name, z) :: rest =>
    match setOptVal fuel s "time_control" name (.scalar (.int z)) false false with
    | .err e s' => .err e s'
    | .ok _ s' => setManyTC fuel s' rest

/-- Embeds `WrfNamelist.set_time_period` for `datetime` arguments (the claims
under study pass datetimes; the `None`/`timedelta`/`date` argument shapes the
source also accepts merely select different target datetimes and are not
exercised here).  The source first evaluates the current time period — that
read, and its possible exceptions, are kept — then writes the six start
fields, the six end fields, and the run-length decomposition of
`end - start`, and finally refreshes `gfdda_end_h` when the FDDA heuristic
flag is set. -/
def wrfSetTimePeriod (fuel : ℕ) (s : NL) (startD endD : Date6) : Res Unit :=
  match wrfGetTimePeriod s with
  | .error e => .err e s
  | .ok _ =>
    let t := dtDiffSeconds startD endD
    let hms := timedeltaHMS (tdSeconds t)
    let fields : List (String × ℤ) :=
      [("start_year", startD.year), ("start_month", startD.month),
       ("start_day", startD.day), ("start_hour", startD.hour),
       ("start_minute", startD.minute), ("start_second", startD.second),
       ("end_year", endD.year), ("end_month", endD.month),
       ("end_day", endD.day), ("end_hour", endD.hour),
       ("end_minute", endD.minute), ("end_second", endD.second),
       ("run_days", tdDays t), ("run_hours", hms.1),
       ("run_minutes", hms.2.1), ("run_seconds", hms.2.2)]
    match setManyTC fuel s fields with
    | .err e s' => .err e s'
    | .ok _ s' =>
      if s'.updateFddaEnd then
        match wrfGetRunTimeHours s' with
        | .error e => .err e s'
        | .ok q =>
          match setOptVal fuel s' "fdda" "gfdda_end_h" (.scalar (.int ⌈q⌉)) false false with
          | .err e s2 => .err e s2
          | .ok _ s2 => .ok () s2
      else .ok () s'

/-- Zero-padded fixed-width decimal rendering, Python `"{:0Nd}".format`. -/
def pyFmtPad (w : ℕ) (z : ℤ) : List Char :=
  if z < 0 then
    let ds := (toString (-z).toNat).data
    '-' :: (List.replicate (w - 1 - ds.length) '0' ++ ds)
  else
    let ds := (toString z.toNat).data
    List.replicate (w - ds.length) '0' ++ ds

/-- The `YYYY-MM-DD_HH:MM:SS` rendering used by `WpsNamelist.set_time_period`. -/
def wpsDateString (d : Date6) : List Char :=
  pyFmtPad 4 d.year ++ ('-' :: pyFmtPad 2 d.month) ++ ('-' :: pyFmtPad 2 d.day) ++
    ('_' :: pyFmtPad 2 d.hour) ++ (':' :: pyFmtPad 2 d.minute) ++
    (':' :: pyFmtPad 2 d.second)

/-- Embeds `WpsNamelist.ConvertDate`: split on `_`, strip single quotes,
parse the `-`/`:`-separated integer parts, build a `datetime` (missing parts
raise `IndexError` through the `date_parts[i]` accesses, invalid components
`ValueError`). -/
def convertDate (din : List Char) : Except PyErr Date6 :=
  match din.splitOn '_' with
  | [] => .error .indexError
  | datePart :: restParts =>
    let dres := (datePart.splitOn '-').mapM
      (fun p => pyIntOfChars (p.filter (fun c => c ≠ '\'')))
    let tres : Except PyErr (List ℤ) :=
      match restParts with
      | [] => .ok [0, 0, 0]
      | timePart :: _ =>
        (timePart.splitOn ':').mapM (fun p => pyIntOfChars (p.filter (fun c => c ≠ '\'')))
    match dres, tres with
    | .ok (y :: mo :: dy :: _), .ok (h :: mi :: se :: _) =>
      let d : Date6 := ⟨y, mo, dy, h, mi, se⟩
      if dateValid d then .ok d else .error .valueError
    | .ok _, .ok _ => .error .indexError
    | .error e, _ => .error e
    | _, .error e => .error e

/-- Embeds `WpsNamelist.get_time_period`: read the domain-1 `start_date` and
`end_date` strings and convert them (a non-string stored value would hit
`date_in.split` and raise `AttributeError`). -/
def wpsGetTimePeriod (s : NL) : Except PyErr (Date6 × Date6) :=
  let rd : String → Except PyErr Date6 := fun name =>
    match getOptValNoSect s name (some 1) false false with
    | .error e => .error e
    | .ok (.many _) => .error PyErr.typeError
    | .ok (.one (.str t)) => convertDate t
    | .ok (.one _) => .error PyErr.attributeError
  match rd "start_date", rd "end_date" with
  | .ok a, .ok b => .ok (a, b)
  | .error e, _ => .error e
  | _, .error e => .error e

/-- Embeds `WpsNamelist.set_time_period` for `datetime` arguments: evaluate
the current period, then store the two formatted strings in the `share`
section. -/
def wpsSetTimePeriod (fuel : ℕ) (s : NL) (startD endD : Date6) : Res Unit :=
  match wpsGetTimePeriod s with
  | .error e => .err e s
  | .ok _ =>
    match setOptVal fuel s "share" "start_date"
        (.scalar (.str (wpsDateString startD))) false false with
    | .err e s' => .err e s'
    | .ok _ s' =>
      match setOptVal fuel s' "share" "end_date"
          (.scalar (.str (wpsDateString endD))) false false with
      | .err e s2 => .err e s2
      | .ok _ s2 => .ok () s2

/-! ### The namelist container -/

/-- State of a `NamelistContainer`: the two namelists plus the option names
returned by `self.met_opts()` — those come from the meteorology preset
configuration file, an external collaborator, so they are a parameter of the
model. -/
structure Container where
  wrf : NL
  wps : NL
  metOpts : List String
deriving DecidableEq

/-- Result of a container-level stateful operation. -/
inductive CRes (α : Type) where
  | ok (a : α) (c : Container)
  | err (e : PyErr) (c : Container)
deriving DecidableEq

/-- Final container state of an operation, error or not. -/
def CRes.state {α : Type} : CRes α → Container
  | .ok _ c => c
  | .err _ c => c

/-- True when the container-level operation raised. -/
def CRes.isErr {α : Type} : CRes α → Bool
  | .ok _ _ => false
  | .err _ _ => true

/-- Embeds `NamelistContainer.domain_opts`. -/
def domainOpts : List String :=
  ["max_dom", "parent_id", "parent_grid_ratio", "i_parent_start",
   "j_parent_start", "e_we", "e_sn", "dx", "dy"]

/-- Embeds `NamelistContainer.date_opts`. -/
def dateOpts : List String :=
  ["run_days", "run_hours", "run_minutes", "run_seconds", "start_year",
   "start_month", "start_day", "start_hour", "start_minute", "start_second",
   "end_year", "end_month", "end_day", "end_hour", "end_minute", "end_second",
   "start_date", "end_date"]

/-- Embeds `NamelistContainer.sync_options = ['max_dom'] + domain_opts`
(so `max_dom` genuinely appears twice). -/
def syncOptions : List String := ["max_dom"] ++ domainOpts

/-- Embeds `NamelistContainer._restricted_opt = domain_opts + date_opts`. -/
def restrictedOpts : List String := domainOpts ++ dateOpts

/-- Embeds `NamelistContainer.wrfopt_to_wpsopt`: apply the first component of
`_sync_prep_fxns` for `dx`/`dy` (which is `_wrf2wps_dxdy`), identity for
every other option. -/
def wrfoptToWpsopt (opt : String) (v : List PyVal) : List PyVal :=
  if opt = "dx" ∨ opt = "dy" then wrf2wpsDxdy v else v

/-- Embeds `NamelistContainer.wpsopt_to_wrfopt`: apply `_wps2wrf_dxdy`
(which reads the WPS namelist) for `dx`/`dy`, identity otherwise. -/
def wpsoptToWrfopt (c : Container) (opt : String) (v : List PyVal) :
    Except PyErr (List PyVal) :=
  if opt = "dx" ∨ opt = "dy" then wps2wrfDxdy v c.wps else .ok v

/-- Embeds `Namelist.IsOptBool`: look at the first stored value; a string
compares (stripped) against the two Fortran literals; any non-string value
hits `opt.strip()` and raises `AttributeError`; an empty stored list raises
`IndexError` through `opt[0]`. -/
def isOptBool (s : NL) (sect opt : String) : Except PyErr Bool :=
  match getOpt s.opts sect opt with
  | none => .error .keyError
  | some [] => .error .indexError
  | some (v :: _) =>
    match v with
    | .str t => .ok (pyStrip t = ".true.".data ∨ pyStrip t = ".false.".data)
    | _ => .error .attributeError

/-- Embeds `NamelistContainer.cmd_set_other_opt`: date-family options are
rejected with `RuntimeError`; domain-shared options are written to the WPS
namelist (unless `force_wrf_only`) and then to the WRF namelist; any other
option goes to whichever single namelist holds it, after the boolean-literal
guard (the met-option branch only prints a warning and has no state
effect). -/
def cmdSetOtherOpt (fuel : ℕ) (c : Container) (optname : String)
    (optval : PyIn) (forceWrfOnly : Bool) : CRes Unit :=
  if dateOpts.contains optname then .err .runtimeError c
  else if domainOpts.contains optname then
    let afterWps : CRes Unit :=
      if forceWrfOnly then .ok () c
      else
        match setOptValNoSect fuel c.wps optname optval false false with
        | .err e s' => .err e { c with wps := s' }
        | .ok _ s' => .ok () { c with wps := s' }
    match afterWps with
    | .err e c' => .err e c'
    | .ok _ c' =>
      match setOptValNoSect fuel c'.wrf optname optval false false with
      | .err e s' => .err e { c' with wrf := s' }
      | .ok _ s' => .ok () { c' with wrf := s' }
  else
    let isTrueFalseLiteral : Bool :=
      match optval with
      | .scalar (.str t) => t = ".true.".data ∨ t = ".false.".data
      | _ => false
    match findOptSection c.wps optname with
    | .error e => .err e c
    | .ok (some sect) =>
      match isOptBool c.wps sect optname with
      | .error e => .err e c
      | .ok b =>
        if b ∧ ¬ isTrueFalseLiteral then .err .runtimeError c
        else
          match setOptVal fuel c.wps sect optname optval false false with
          | .err e s' => .err e { c with wps := s' }
          | .ok _ s' => .ok () { c with wps := s' }
    | .ok none =>
      match findOptSection c.wrf optname with
      | .error e => .err e c
      | .ok none => .err .runtimeError c
      | .ok (some sect) =>
        match isOptBool c.wrf sect optname with
        | .error e => .err e c
        | .ok b =>
          if b ∧ ¬ isTrueFalseLiteral then .err .runtimeError c
          else
            match setOptVal fuel c.wrf sect optname optval false false with
            | .err e s' => .err e { c with wrf := s' }
            | .ok _ s' => .ok () { c with wrf := s' }

/-! ### `_sync_nl_opts` -/

/-- The five answers `user_input_list` offers when `_sync_nl_opts` runs
interactively. -/
inductive SyncChoice where
  | thisWrf
  | thisWps
  | allWrf
  | allWps
  | ignore
deriving DecidableEq

/-- Sticky priority flags of `_sync_nl_opts` (the `priorities` dict) plus the
position in the stream of interactive answers. -/
structure SyncFlags where
  wrfP : Bool
  wpsP : Bool
  k : ℕ
deriving DecidableEq

/-- Embeds `choose_new_val` for ordinary (value-list) sync options.
Returns the optional (converted value, destination-is-wps) pair together
with the updated sticky flags; the WPS→WRF conversion can raise. -/
def chooseNewVal (c : Container) (answers : ℕ → SyncChoice) (fl : SyncFlags)
    (opt : String) (wrfVal wpsVal : List PyVal) :
    Except PyErr (Option (List PyVal × Bool) × SyncFlags) :=
  if fl.wrfP then .ok (some (wrfoptToWpsopt opt wrfVal, true), fl)
  else if fl.wpsP then
    match wpsoptToWrfopt c opt wpsVal with
    | .error e => .error e
    | .ok v => .ok (some (v, false), fl)
  else
    let ans := answers fl.k
    let fl' : SyncFlags := { fl with k := fl.k + 1 }
    match ans with
    | .thisWrf => .ok (some (wrfoptToWpsopt opt wrfVal, true), fl')
    | .allWrf => .ok (some (wrfoptToWpsopt opt wrfVal, true), { fl' with wrfP := true })
    | .thisWps =>
      match wpsoptToWrfopt c opt wpsVal with
      | .error e => .error e
      | .ok v => .ok (some (v, false), fl')
    | .allWps =>
      match wpsoptToWrfopt c opt wpsVal with
      | .error e => .error e
      | .ok v => .ok (some (v, false), { fl' with wpsP := true })
    | .ignore => .ok (none, fl')

/-- Embeds `choose_new_val` for the hard-coded start/end-date step: the
option name `'Start and end date'` is not in `_sync_prep_fxns`, so both
conversions are the identity on the pair of datetimes. -/
def chooseNewValDates (answers : ℕ → SyncChoice) (fl : SyncFlags)
    (wrfDates wpsDates : Date6 × Date6) :
    Option (Date6 × Date6 × Bool) × SyncFlags :=
  if fl.wrfP then (some (wrfDates.1, wrfDates.2, true), fl)
  else if fl.wpsP then (some (wpsDates.1, wpsDates.2, false), fl)
  else
    let ans := answers fl.k
    let fl' : SyncFlags := { fl with k := fl.k + 1 }
    match ans with
    | .thisWrf => (some (wrfDates.1, wrfDates.2, true), fl')
    | .allWrf => (some (wrfDates.1, wrfDates.2, true), { fl' with wrfP := true })
    | .thisWps => (some (wpsDates.1, wpsDates.2, false), fl')
    | .allWps => (some (wpsDates.1, wpsDates.2, false), { fl' with wpsP := true })
    | .ignore => (none, fl')

/-- One iteration of the `for optname in self.sync_options` loop of
`_sync_nl_opts`. -/
def syncStep (fuel : ℕ) (answers : ℕ → SyncChoice) (opt : String)
    (c : Container) (fl : SyncFlags) : CRes SyncFlags :=
  match getOptValNoSect c.wrf opt none false false with
  | .error e => .err e c
  | .ok (.one _) => .err .typeError c
  | .ok (.many wrfVal) =>
    match getOptValNoSect c.wps opt none false false with
    | .error e => .err e c
    | .ok (.one _) => .err .typeError c
    | .ok (.many wpsVal) =>
      if pyEqList (wrfoptToWpsopt opt wrfVal) wpsVal then .ok fl c
      else
        match chooseNewVal c answers fl opt wrfVal wpsVal with
        | .error e => .err e c
        | .ok (none, fl') => .ok fl' c
        | .ok (some (newVal, toWps), fl') =>
          if toWps then
            match setOptValNoSect fuel c.wps opt (.list newVal) false false with
            | .err e s' => .err e { c with wps := s' }
            | .ok _ s' => .ok fl' { c with wps := s' }
          else
            match setOptValNoSect fuel c.wrf opt (.list newVal) false false with
            | .err e s' => .err e { c with wrf := s' }
            | .ok _ s' => .ok fl' { c with wrf := s' }

/-- The `sync_options` fold of `_sync_nl_opts`. -/
def syncLoop (fuel : ℕ) (answers : ℕ → SyncChoice) :
    List String → Container → SyncFlags → CRes SyncFlags
  | [], c, fl => .ok fl c
  | opt :: rest, c, fl =>
    match syncStep fuel answers opt c fl with
    | .err e c' => .err e c'
    | .ok fl' c' => syncLoop fuel answers rest c' fl'

/-- Embeds `NamelistContainer._sync_nl_opts` (with its default
`interactive=True`, as `__init__` calls it): parse the `priority_in`
argument (`'wrf'`/`'wps'` set a sticky flag, `None`/`'no sync'` return at
once without reconciling anything, any other value except `'user'` raises
`ValueError`), then reconcile the start/end dates as one combined step, then
every option of `sync_options` in order. -/
def syncNlOpts (fuel : ℕ) (c : Container) (priorityIn : Option String)
    (answers : ℕ → SyncChoice) : CRes Unit :=
  let parsed : Except PyErr (Option SyncFlags) :=
    match priorityIn with
    | some "wrf" => .ok (some ⟨true, false, 0⟩)
    | some "wps" => .ok (some ⟨false, true, 0⟩)
    | some "no sync" => .ok none
    | none => .ok none
    | some "user" => .ok (some ⟨false, false, 0⟩)
    | some _ => .error .valueError
  match parsed with
  | .error e => .err e c
  | .ok none => .ok () c
  | .ok (some fl0) =>
    match wrfGetTimePeriod c.wrf with
    | .error e => .err e c
    | .ok wrfDates =>
      match wpsGetTimePeriod c.wps with
      | .error e => .err e c
      | .ok wpsDates =>
        let afterDates : CRes SyncFlags :=
          if wrfDates = wpsDates then .ok fl0 c
          else
            match chooseNewValDates answers fl0 wrfDates wpsDates with
            | (none, fl1) => .ok fl1 c
            | (some (sd, ed, toWps), fl1) =>
              if toWps then
                match wpsSetTimePeriod fuel c.wps sd ed with
                | .err e s' => .err e { c with wps := s' }
                | .ok _ s' => .ok fl1 { c with wps := s' }
              else
                match wrfSetTimePeriod fuel c.wrf sd ed with
                | .err e s' => .err e { c with wrf := s' }
                | .ok _ s' => .ok fl1 { c with wrf := s' }
        match afterDates with
        | .err e c' => .err e c'
        | .ok fl1 c' =>
          match syncLoop fuel answers syncOptions c' fl1 with
          | .err e c2 => .err e c2
          | .ok _ c2 => .ok () c2

/-! ### The interactive option-input grammar (`_parse_option_input`) -/

/-- Match of the regex `\s*@\d*:?\d*` at one position: optional whitespace,
a literal `@`, a digit run, an optional colon, a digit run.  Returns the
match length together with the `(?<=@)\d*:?\d*` group (first digit run,
whether a colon was present, second digit run). -/
def tryAtCmdAt (s : List Char) : Option (ℕ × List Char × Bool × List Char) :=
  let ws := s.takeWhile Char.isWhitespace
  match s.drop ws.length with
  | '@' :: rest =>
    let d1 := rest.takeWhile Char.isDigit
    let rest1 := rest.drop d1.length
    match rest1 with
    | ':' :: r2 =>
      let d2 := r2.takeWhile Char.isDigit
      some (ws.length + 1 + d1.length + 1 + d2.length, d1, true, d2)
    | _ => some (ws.length + 1 + d1.length, d1, false, [])
  | _ => none

/-- Embeds `at_command.sub('', input_str)`: delete every non-overlapping
occurrence of `\s*@\d*:?\d*`, scanning left to right (every match contains
an `@`, hence is non-empty, so a fuel of the string length suffices). -/
def subAtCmdAux : ℕ → List Char → List Char
  | 0, s => s
  | _ + 1, [] => []
  | f + 1, ch :: rest =>
    match tryAtCmdAt (ch :: rest) with
    | some (n, _, _, _) => subAtCmdAux f ((ch :: rest).drop n)
    | none => ch :: subAtCmdAux f rest

/-- Wrapper choosing enough fuel for `subAtCmdAux`. -/
def subAtCmd (s : List Char) : List Char := subAtCmdAux s.length s

/-- Slice selector extracted from an `@` command:
`(start?, stop?)` as the Python `slice` holds them. -/
abbrev AtSlice := Option ℤ × Option ℤ

/-- Build the `slice` object from the matched `@` command, following the
source: each bound is `None` for an empty digit run and `int(x)-1`
otherwise; with a colon the end bound is then made inclusive (`+= 1` when
not `None`); without a colon the slice is `(i, i+1)` — and when the single
bound is empty the source computes `None + 1`, a `TypeError`. -/
def atCmdSlice (d1 : List Char) (colon : Bool) (d2 : List Char) :
    Except PyErr AtSlice :=
  let a : Option ℤ := if d1 = [] then none else some ((digitsVal d1 : ℤ) - 1)
  if colon then
    let b : Option ℤ := if d2 = [] then none else some ((digitsVal d2 : ℤ) - 1 + 1)
    .ok (a, b)
  else
    match a with
    | none => .error .typeError
    | some av => .ok (some av, some (av + 1))

/-- Lower-case a string and compare (`v.lower() == 't'` etc.). -/
def normalizeLogicalToken (v : List Char) : List Char :=
  if lowerChars v = "t".data then ".true.".data
  else if lowerChars v = "f".data then ".false.".data
  else v

/-- Embeds `NamelistContainer._parse_option_input`.  The returned list mixes
the currently stored (typed) values with the freshly entered strings when an
`@` selector addresses a subset of domains; the caller converts them.  All
rules of the source are kept: single-value options take exactly one value;
without `@` the values are padded/checked against the domain count
(`error_if_too_long=True`); with `@` the value count must equal the slice
length; `t`/`f` normalise for logicals; every value must pass
`check_value_type`, and failures report which 1-based domains were bad
(`NamelistValueError` — unless the slice start is `None`, where the source's
`i + 1 + slice_start` arithmetic raises `TypeError`). -/
def parseOptionInput (s : NL) (optname : String) (inputStr : List Char) :
    Except PyErr (List PyVal) :=
  let xxE : Except PyErr (Option AtSlice) :=
    match tryAtCmdAt inputStr with
    | none => .ok none
    | some (_, d1, colon, d2) =>
      match atCmdSlice d1 colon d2 with
      | .error e => .error e
      | .ok sl => .ok (some sl)
  match xxE with
  | .error e => .error e
  | .ok xx =>
    let stripped := subAtCmd inputStr
    match isOptionPerDomain s optname with
    | .error e => .error e
    | .ok isPD =>
      let stripped2 :=
        (stripped.dropWhile (fun ch => ch.isWhitespace ∨ ch = ',')).reverse.dropWhile
          (fun ch => ch.isWhitespace ∨ ch = ',') |>.reverse
      let inputVals0 := (stripped2.splitOn ',').map pyStrip
      let checkedVals : Except PyErr (List (List Char)) :=
        if ¬ isPD ∧ (inputVals0.length ≠ 1 ∨ inputVals0.headD [] = []) then
          .error .namelistValueError
        else if isPD then
          match xx with
          | none => matchOptionLengthToDomains s inputVals0 true true
          | some (a, b) =>
            match maxDomains s with
            | .error e => .error e
            | .ok n =>
              if n < 0 then .error .valueError
              else if inputVals0.length ≠ pySliceLength n.toNat a b then
                .error .namelistValueError
              else .ok inputVals0
        else .ok inputVals0
      match checkedVals with
      | .error e => .error e
      | .ok vals1 =>
        match lookupRegEntry s.registry optname with
        | .error e => .error e
        | .ok regOpt =>
          let vals2 :=
            if regOpt.rtype = RegType.logical then vals1.map normalizeLogicalToken
            else vals1
          let goodOpts := vals2.map (fun v => (pyConvert regOpt.rtype (.str v)).isOk)
          if ¬ goodOpts.all id then
            match xx with
            | some (none, _) => .error .typeError
            | _ => .error .namelistValueError
          else
            match xx with
            | none => .ok (vals2.map PyVal.str)
            | some (a, b) =>
              match getOptValNoSect s optname none true false with
              | .error e => .error e
              | .ok (.one _) => .error .typeError
              | .ok (.many newVals) =>
                .ok (pySetSlice newVals a b (vals2.map PyVal.str))

/-- The tail of `NamelistContainer._user_set_other_opt` once the user has
entered a value: parse the input, then
`set_opt_val_no_sect(option_name, user_val, convert_type_if_needed=True)`. -/
def userApplyOptionInput (fuel : ℕ) (s : NL) (optname : String)
    (inputStr : List Char) : Res (List PyVal) :=
  match parseOptionInput s optname inputStr with
  | .error e => .err e s
  | .ok vals => setOptValNoSect fuel s optname (.list vals) false true

/-! ### Registry file parsing (`Registry._parse_reg_file` and friends)

A registry source line is modelled after comment-stripping and tokenising:
the first token dispatches on `ifdef`/`endif`/`include`/`rconfig`, anything
else (blank lines, other entry types) is skipped.  File paths are opaque
keys into a finite file system (the `os.path` relative resolution the source
performs does not affect which file an `include` denotes in the model). -/

/-- One meaningful registry line. -/
inductive RegLine where
  | rconfig (typ sym how num dflt : String)
  | incl (path : String)
  | ifdefLn (varName state : String)
  | endifLn
  | otherLn
deriving DecidableEq

/-- Registry entry as `Registry._add_rconfig` stores it (all columns the
parser keeps). -/
structure RconfigEntry where
  rtype : String
  symbol : String
  howSection : Option String
  numEntries : String
  dflt : String
deriving DecidableEq

/-- Embeds `parse_how_set`: `derived` or `namelist,<section>`, anything else
raises `NotImplementedError`. -/
def parseHowSet (v : String) : Except PyErr (Option String) :=
  match v.data.splitOn ',' with
  | [x] => if x = "derived".data then .ok none else .error .notImplementedError
  | [x, sect] =>
    if x = "namelist".data then .ok (some ⟨sect⟩) else .error .notImplementedError
  | _ => .error .notImplementedError

/-- The `rconfig` table being accumulated. -/
abbrev RconfigTable := List (String × RconfigEntry)

/-- Embeds Python `dict.update(new)`: existing keys are overwritten in
place, new keys are appended in order. -/
def dictUpdate (acc newEntries : RconfigTable) : RconfigTable :=
  newEntries.foldl
    (fun a p => if (lookupA a p.1).isSome then setA a p.1 p.2 else a ++ [p]) acc

/-- Embeds `Registry._parse_reg_line` for an `rconfig` line (key column is
the symbol): a key already present is only logged — the table keeps the
first definition; otherwise the entry is appended. -/
def addRconfig (acc : RconfigTable) (typ sym how num dflt : String) :
    Except PyErr RconfigTable :=
  match parseHowSet how with
  | .error e => .error e
  | .ok hs =>
    if (lookupA acc sym).isSome then .ok acc
    else .ok (acc ++ [(sym, ⟨typ, sym, hs, num, dflt⟩)])

/-- Embeds `check_envvar`: look the variable up in the `ENVIRONMENT`
configuration (missing means `'0'`) and compare the stripped states. -/
def checkEnvvar (env : List (String × String)) (varName state : String) : Bool :=
  pyStrip ((lookupA env varName).getD "0").data = pyStrip state.data

/-- Line-folding loop of `_parse_reg_file`, parameterised by the recursive
include handler.  An `ifdef` met while not skipping tests the environment;
`endif` always clears the flag; every other line is ignored while skipping;
an `include` parses the target file into a fresh table which is then merged
with `dict.update` — so across an include boundary a re-definition
**overwrites** the caller's earlier entry, unlike the logged-and-skipped
duplicates within one table. -/
def parseRegLinesWith (env : List (String × String))
    (recurIncl : String → Except PyErr RconfigTable) :
    List RegLine → Bool → RconfigTable → Except PyErr RconfigTable
  | [], _, acc => .ok acc
  | line :: rest, skipping, acc =>
    match line with
    | .ifdefLn v st =>
      if ¬ skipping then
        parseRegLinesWith env recurIncl rest (¬ checkEnvvar env v st) acc
      else parseRegLinesWith env recurIncl rest skipping acc
    | .endifLn => parseRegLinesWith env recurIncl rest false acc
    | .incl p =>
      if ¬ skipping then
        match recurIncl p with
        | .error e => .error e
        | .ok newTable =>
          parseRegLinesWith env recurIncl rest skipping (dictUpdate acc newTable)
      else parseRegLinesWith env recurIncl rest skipping acc
    | .rconfig typ sym how num dflt =>
      if ¬ skipping then
        match addRconfig acc typ sym how num dflt with
        | .error e => .error e
        | .ok acc' => parseRegLinesWith env recurIncl rest skipping acc'
      else parseRegLinesWith env recurIncl rest skipping acc
    | .otherLn => parseRegLinesWith env recurIncl rest skipping acc

/-- Embeds `Registry._parse_reg_file`: a missing file raises
`RegistryIOError`; otherwise the lines are folded with the single
(non-nested) `skipping` flag.  `fuel` bounds the `include` recursion depth
(circular includes would make the Python recurse without bound). -/
def parseRegFile (files : List (String × List RegLine))
    (env : List (String × String)) : ℕ → String → Except PyErr RconfigTable
  | fuel, fname =>
    match lookupA files fname with
    | none => .error .registryIOError
    | some lines =>
      parseRegLinesWith env
        (fun p =>
          match fuel with
          | 0 => .error .recursionError
          | f + 1 => parseRegFile files env f p)
        lines false []
termination_by structural fuel => fuel

/-! ### Derived shorthand used by the verification layer -/

/-- The value `match_option_length_to_domains` produces (with
`error_if_too_long=False`, `trim_extra=True`) once `max_dom` is known to be
`n`: pad by repeating the last element, or truncate with Python's `[:n]`. -/
def resizeList {α : Type} (n : ℤ) (l : List α) : List α :=
  if (l.length : ℤ) < n then l ++ listMul (lastSlice l) (n - l.length)
  else pyTakeSlice l n

/-- The inner `set_opt_val_no_sect` callee used by the `max_dom` callback
inside `set_opt_val` (one fuel level down). -/
def callbackSetter (f : ℕ) (st : NL) (o : String) (vi : PyIn) : Res (List PyVal) :=
  setOptValNoSect f st o vi false false

/-- What one `_update_opt_domains` visit leaves stored for an option whose
current value is `cur`: the resized list when the registry marks it
per-domain, the unchanged value otherwise (also when the registry lookup
raises and the option is skipped). -/
def regResize (reg : RegTable) (opt : String) (n : ℤ) (cur : List PyVal) :
    List PyVal :=
  match lookupRegEntry reg opt with
  | .ok entry => if entry.numEntries = "max_domains" then resizeList n cur else cur
  | .error _ => cur

/-- Well-formedness bundle under which the `_update_opt_domains` walk
succeeds: `max_dom` reads as `n ≥ 1`; every option key is present and lives
in a unique section; and every option the registry marks per-domain has a
non-empty well-typed stored list, no registered callback, and is not
`max_dom` itself.  Real namelists loaded through the startup hooks satisfy
all of this. -/
structure DomainsWF (s : NL) (n : ℤ) : Prop where
  maxdom : maxDomains s = .ok n
  npos : 1 ≤ n
  keysOK : ∀ sect opt, (sect, opt) ∈ optKeys s.opts →
    getOpt s.opts sect opt ≠ none ∧ findOptSection s opt = .ok (some sect)
  perDomainOK : ∀ sect opt cur entry, (sect, opt) ∈ optKeys s.opts →
    getOpt s.opts sect opt = some cur →
    lookupRegEntry s.registry opt = .ok entry →
    entry.numEntries = "max_domains" →
    cur ≠ [] ∧ (∀ v ∈ cur, pyIsinstance entry.rtype v = true) ∧
      s.callbacks.contains opt = false ∧ opt ≠ "max_dom"

/-! ### Fixtures for the claim theorems -/

/-- Registry fixture for C4: the root file defines `opt_a` twice (the second
in-file definition must be skipped) and defines `opt_x` *before* including a
sub-file that re-defines both `opt_x` and `opt_a`. -/
def c4Files : List (String × List RegLine) :=
  [("Registry",
    [.rconfig "integer" "opt_a" "namelist,domains" "1" "1",
     .rconfig "real" "opt_a" "namelist,domains" "1" "2",
     .rconfig "integer" "opt_x" "namelist,domains" "1" "10",
     .incl "registry.sub"]),
   ("registry.sub",
    [.rconfig "character" "opt_x" "namelist,physics" "1" "20",
     .rconfig "logical" "opt_a" "namelist,physics" "1" "3"])]

/-- Namelist fixture for C5: one scalar option of registry type `real`. -/
def c5NL : NL :=
  { opts := [("physics", [("my_real", [.real 3])])],
    registry := [("my_real", scalarEntry .real)],
    callbacks := [], updateFddaEnd := false }

/-- Namelist fixture for C6: one per-domain option holding two values. -/
def c6NL : NL :=
  { opts := [("s", [("foo", [.int 10, .int 20])])],
    registry := [("foo", perDomainEntry .integer)],
    callbacks := [], updateFddaEnd := false }

/-- Namelist fixture for C2 (the spec's example scenario 1): a one-domain
namelist with `max_dom=1` and `e_we=[100]`, carrying the WRF/WPS `max_dom`
callback. -/
def c2NL : NL :=
  { opts := [("domains", [("max_dom", [.int 1]), ("e_we", [.int 100])])],
    registry := [("max_dom", scalarEntry .integer), ("e_we", perDomainEntry .integer)],
    callbacks := ["max_dom"], updateFddaEnd := false }

/-- Namelist fixture for C10: the per-domain option `foo` appears in two
sections (legal in the file format, and `find_opt_section` treats it as
ambiguous), and `max_dom` carries the usual `_update_opt_domains`
callback. -/
def c10NL : NL :=
  { opts := [("domains", [("max_dom", [.int 1])]),
             ("a", [("foo", [.int 10])]),
             ("b", [("foo", [.int 20])])],
    registry := [("max_dom", scalarEntry .integer), ("foo", perDomainEntry .integer)],
    callbacks := ["max_dom"], updateFddaEnd := false }

/-- WPS-side namelist fixture for C3: `max_dom` and `e_we` live in
`geogrid`, mirroring the real WPS namelist. -/
def c3WpsNL : NL :=
  { opts := [("geogrid", [("max_dom", [.int 1]), ("e_we", [.int 100])])],
    registry := [("max_dom", scalarEntry .integer), ("e_we", perDomainEntry .integer)],
    callbacks := ["max_dom"], updateFddaEnd := false }

/-- Container fixture for C3: the C2 WRF namelist paired with the WPS
namelist above. -/
def c3C : Container :=
  { wrf := c2NL, wps := c3WpsNL, metOpts := [] }

/-- The C3 WPS namelist after `e_we` has been set to 200. -/
def c3WpsNL' : NL :=
  { opts := [("geogrid", [("max_dom", [.int 1]), ("e_we", [.int 200])])],
    registry := [("max_dom", scalarEntry .integer), ("e_we", perDomainEntry .integer)],
    callbacks := ["max_dom"], updateFddaEnd := false }

/-- The C3 WRF namelist after `e_we` has been set to 200. -/
def c3WrfNL' : NL :=
  { opts := [("domains", [("max_dom", [.int 1]), ("e_we", [.int 200])])],
    registry := [("max_dom", scalarEntry .integer), ("e_we", perDomainEntry .integer)],
    callbacks := ["max_dom"], updateFddaEnd := false }

/-- Namelist fixture for C7 (the spec's example scenario 2): a 4-domain
namelist whose per-domain option `foo` currently holds `[1,2,3,4]`. -/
def c7NL : NL :=
  { opts := [("domains", [("max_dom", [.int 4]),
                          ("foo", [.int 1, .int 2, .int 3, .int 4])])],
    registry := [("max_dom", scalarEntry .integer), ("foo", perDomainEntry .integer)],
    callbacks := ["max_dom"], updateFddaEnd := false }

/-- WPS-side namelist fixture for C8: two domains, domain 2 nested in
domain 1 with grid ratio 1. -/
def c8NL : NL :=
  { opts := [("geogrid", [("max_dom", [.int 2]),
                          ("parent_id", [.int 1, .int 1]),
                          ("parent_grid_ratio", [.int 1, .int 1])])],
    registry := [("max_dom", scalarEntry .integer),
                 ("parent_id", perDomainEntry .integer),
                 ("parent_grid_ratio", perDomainEntry .integer)],
    callbacks := ["max_dom"], updateFddaEnd := false }

/-- WRF namelist fixture for C9: the sixteen scalar integer `time_control`
fields, currently holding the period 2018-01-01 00:00:00 – 2018-01-02
00:00:00. -/
def c9NL : NL :=
  { opts := [("time_control",
      [("start_year", [.int 2018]), ("start_month", [.int 1]),
       ("start_day", [.int 1]), ("start_hour", [.int 0]),
       ("start_minute", [.int 0]), ("start_second", [.int 0]),
       ("end_year", [.int 2018]), ("end_month", [.int 1]),
       ("end_day", [.int 2]), ("end_hour", [.int 0]),
       ("end_minute", [.int 0]), ("end_second", [.int 0]),
       ("run_days", [.int 1]), ("run_hours", [.int 0]),
       ("run_minutes", [.int 0]), ("run_seconds", [.int 0])])],
    registry := [("start_year", scalarEntry .integer),
      ("start_month", scalarEntry .integer), ("start_day", scalarEntry .integer),
      ("start_hour", scalarEntry .integer), ("start_minute", scalarEntry .integer),
      ("start_second", scalarEntry .integer), ("end_year", scalarEntry .integer),
      ("end_month", scalarEntry .integer), ("end_day", scalarEntry .integer),
      ("end_hour", scalarEntry .integer), ("end_minute", scalarEntry .integer),
      ("end_second", scalarEntry .integer), ("run_days", scalarEntry .integer),
      ("run_hours", scalarEntry .integer), ("run_minutes", scalarEntry .integer),
      ("run_seconds", scalarEntry .integer)],
    callbacks := [], updateFddaEnd := false }

/-- WRF namelist fixture for C1: a full time period plus the nine
domain-shared options, with `e_we = 100`. -/
def c1Wrf : NL :=
  { opts := [("time_control",
      [("start_year", [.int 2018]), ("start_month", [.int 1]),
       ("start_day", [.int 1]), ("start_hour", [.int 0]),
       ("start_minute", [.int 0]), ("start_second", [.int 0]),
       ("end_year", [.int 2018]), ("end_month", [.int 1]),
       ("end_day", [.int 2]), ("end_hour", [.int 0]),
       ("end_minute", [.int 0]), ("end_second", [.int 0])]),
     ("domains",
      [("max_dom", [.int 1]), ("parent_id", [.int 1]),
       ("parent_grid_ratio", [.int 1]), ("i_parent_start", [.int 1]),
       ("j_parent_start", [.int 1]), ("e_we", [.int 100]),
       ("e_sn", [.int 50]), ("dx", [.real 1]), ("dy", [.real 1])])],
    registry := [("max_dom", scalarEntry .integer), ("e_we", perDomainEntry .integer)],
    callbacks := ["max_dom"], updateFddaEnd := false }

/-- WPS namelist fixture for C1: the same time period (as date strings) and
the same domain options except `e_we = 200` — so the two namelists disagree
on one synchronized option. -/
def c1Wps : NL :=
  { opts := [("share",
      [("start_date", [.str "2018-01-01_00:00:00".data]),
       ("end_date", [.str "2018-01-02_00:00:00".data])]),
     ("geogrid",
      [("max_dom", [.int 1]), ("parent_id", [.int 1]),
       ("parent_grid_ratio", [.int 1]), ("i_parent_start", [.int 1]),
       ("j_parent_start", [.int 1]), ("e_we", [.int 200]),
       ("e_sn", [.int 50]), ("dx", [.real 1]), ("dy", [.real 1])])],
    registry := [("max_dom", scalarEntry .integer), ("e_we", perDomainEntry .integer)],
    callbacks := ["max_dom"], updateFddaEnd := false }

/-- Container fixture for C1. -/
def c1C : Container := { wrf := c1Wrf, wps := c1Wps, metOpts := [] }

/-!
# Theorems

The remainder of the file is the verification layer: helper lemmas about the
embedded operations followed by one theorem (plus witness or counterexample)
per claim.
-/

/-! ## Association-list and state-shape lemmas -/

theorem lookupA_nil {β : Type} (k : String) : lookupA ([] : List (String × β)) k = none := rfl

theorem lookupA_cons {β : Type} (p : String × β) (rest : List (String × β)) (k : String) :
    lookupA (p :: rest) k = if p.1 = k then some p.2 else lookupA rest k := by
  by_cases h : p.1 = k
  · simp [lookupA, List.find?_cons_of_pos, h]
  · simp [lookupA, List.find?_cons_of_neg, h]

theorem setA_cons {β : Type} (p : String × β) (rest : List (String × β)) (k : String) (v : β) :
    setA (p :: rest) k v = (if p.1 = k then (p.1, v) else p) :: setA rest k v := rfl

theorem lookupA_setA {β : Type} (l : List (String × β)) (k k' : String) (v : β) :
    lookupA (setA l k v) k' =
      if k' = k then (lookupA l k).map (fun _ => v) else lookupA l k' := by
  induction l with
  | nil => by_cases h : k' = k <;> simp [lookupA, setA, h]
  | cons p rest ih =>
    rw [setA_cons]
    by_cases hpk : p.1 = k
    · by_cases hk' : k' = k
      · subst hk'
        simp [lookupA_cons, hpk, ih]
      · have hp' : ¬ p.1 = k' := by rw [hpk]; exact fun h => hk' h.symm
        have hkk' : ¬ k = k' := hpk ▸ hp'
        simp [lookupA_cons, hpk, hk', hp', hkk', ih]
    · by_cases hpk' : p.1 = k'
      · have hk' : ¬ k' = k := fun h => hpk (h ▸ hpk')
        simp [lookupA_cons, hpk, hpk', hk']
      · simp [lookupA_cons, hpk, hpk', ih]

theorem keys_setA {β : Type} (l : List (String × β)) (k : String) (v : β) :
    (setA l k v).map Prod.fst = l.map Prod.fst := by
  induction l with
  | nil => rfl
  | cons p rest ih =>
    rw [setA_cons]
    by_cases hpk : p.1 = k
    · rw [if_pos hpk]; simpa using ih
    · rw [if_neg hpk]; simpa using ih

theorem isSome_lookupA_setA {β : Type} (l : List (String × β)) (k k' : String) (v : β) :
    (lookupA (setA l k v) k').isSome = (lookupA l k').isSome := by
  rw [lookupA_setA]
  by_cases h : k' = k <;> simp [h]

theorem setOpt_cons (p : String × NLSection) (rest : Opts) (sect opt : String)
    (vals : List PyVal) :
    setOpt (p :: rest) sect opt vals =
      (if p.1 = sect then (p.1, setA p.2 opt vals) else p) :: setOpt rest sect opt vals := rfl

theorem lookupA_setOpt (o : Opts) (sect opt : String) (vals : List PyVal)
    (sect' : String) :
    lookupA (setOpt o sect opt vals) sect' =
      if sect' = sect then (lookupA o sect).map (fun sec => setA sec opt vals)
      else lookupA o sect' := by
  induction o with
  | nil => by_cases h : sect' = sect <;> simp [lookupA, setOpt, h]
  | cons p rest ih =>
    rw [setOpt_cons]
    by_cases hps : p.1 = sect
    · by_cases hs' : sect' = sect
      · subst hs'
        simp [lookupA_cons, hps, ih]
      · have hp' : ¬ p.1 = sect' := by rw [hps]; exact fun h => hs' h.symm
        have hss' : ¬ sect = sect' := hps ▸ hp'
        simp [lookupA_cons, hps, hs', hp', hss', ih]
    · by_cases hps' : p.1 = sect'
      · have hs' : ¬ sect' = sect := fun h => hps (h ▸ hps')
        simp [lookupA_cons, hps, hps', hs']
      · simp [lookupA_cons, hps, hps', ih]

theorem getOpt_setOpt (o : Opts) (sect opt : String) (vals : List PyVal)
    (sect' opt' : String) :
    getOpt (setOpt o sect opt vals) sect' opt' =
      if sect' = sect ∧ opt' = opt then (getOpt o sect opt).map (fun _ => vals)
      else getOpt o sect' opt' := by
  unfold getOpt
  rw [lookupA_setOpt]
  by_cases hs : sect' = sect
  · subst hs
    by_cases ho : opt' = opt <;>
      cases hsec : lookupA o sect' <;>
        simp [hsec, lookupA_setA, ho]
  · simp [hs]

theorem keys_setOpt (o : Opts) (sect opt : String) (vals : List PyVal) :
    (setOpt o sect opt vals).map Prod.fst = o.map Prod.fst := by
  induction o with
  | nil => rfl
  | cons p rest ih =>
    rw [setOpt_cons]
    by_cases hps : p.1 = sect
    · rw [if_pos hps]; simpa using ih
    · rw [if_neg hps]; simpa using ih

theorem map_fst_fn_setA {β γ : Type} (l : List (String × β)) (k : String) (v : β)
    (f : String → γ) :
    (setA l k v).map (fun q => f q.1) = l.map (fun q => f q.1) := by
  induction l with
  | nil => rfl
  | cons p rest ih =>
    rw [setA_cons]
    by_cases hpk : p.1 = k
    · rw [if_pos hpk]; simpa using ih
    · rw [if_neg hpk]; simpa using ih

theorem optKeys_setOpt (o : Opts) (sect opt : String) (vals : List PyVal) :
    optKeys (setOpt o sect opt vals) = optKeys o := by
  induction o with
  | nil => rfl
  | cons p rest ih =>
    rw [setOpt_cons]
    by_cases hps : p.1 = sect
    · rw [if_pos hps]
      simp only [optKeys, List.flatMap_cons] at ih ⊢
      rw [ih, map_fst_fn_setA]
    · rw [if_neg hps]
      simp only [optKeys, List.flatMap_cons] at ih ⊢
      rw [ih]

/-! ## Frame lemmas for a single `opts` assignment -/

theorem findOptSection_setOpt (s : NL) (sect opt : String) (vals : List PyVal)
    (opt' : String) :
    findOptSection { s with opts := setOpt s.opts sect opt vals } opt' =
      findOptSection s opt' := by
  have hfilter :
      ((setOpt s.opts sect opt vals).filter
          (fun p => (lookupA p.2 opt').isSome)).map Prod.fst =
        (s.opts.filter (fun p => (lookupA p.2 opt').isSome)).map Prod.fst := by
    induction s.opts with
    | nil => rfl
    | cons p rest ih =>
      rw [setOpt_cons]
      by_cases hps : p.1 = sect
      · rw [if_pos hps]
        simp only [List.filter_cons, isSome_lookupA_setA]
        by_cases hmem : (lookupA p.2 opt').isSome
        · simp only [hmem, if_true, List.map_cons, ih]
        · simp only [hmem, Bool.false_eq_true, if_false, ih]
      · rw [if_neg hps]
        simp only [List.filter_cons]
        by_cases hmem : (lookupA p.2 opt').isSome
        · simp only [hmem, if_true, List.map_cons, ih]
        · simp only [hmem, Bool.false_eq_true, if_false, ih]
  unfold findOptSection
  rw [hfilter]

theorem getStoredList_eq_getOpt (s : NL) (sect opt : String) :
    getStoredList s sect opt =
      (match getOpt s.opts sect opt with
        | some v => .ok v
        | none => .error .keyError) := by
  unfold getStoredList getOpt
  cases hsec : lookupA s.opts sect with
  | none => rfl
  | some sec => cases hopt : lookupA sec opt <;> simp [hopt]

theorem maxDomainsVal_setOpt_ne (s : NL) (sect opt : String) (vals : List PyVal)
    (h : opt ≠ "max_dom") :
    maxDomainsVal { s with opts := setOpt s.opts sect opt vals } = maxDomainsVal s := by
  unfold maxDomainsVal
  rw [findOptSection_setOpt]
  cases hfind : findOptSection s "max_dom" with
  | error e => rfl
  | ok osect =>
    cases osect with
    | none => rfl
    | some sectMD =>
      simp only
      rw [getStoredList_eq_getOpt, getStoredList_eq_getOpt, getOpt_setOpt]
      have : ¬ (sectMD = sect ∧ "max_dom" = opt) := fun hc => h hc.2.symm
      rw [if_neg this]

theorem maxDomains_setOpt_ne (s : NL) (sect opt : String) (vals : List PyVal)
    (h : opt ≠ "max_dom") :
    maxDomains { s with opts := setOpt s.opts sect opt vals } = maxDomains s := by
  unfold maxDomains
  rw [maxDomainsVal_setOpt_ne s sect opt vals h]

theorem maxDomains_after_set_max_dom (s : NL) (sect : String) (v : PyVal)
    (hfind : findOptSection s "max_dom" = .ok (some sect))
    (hpresent : getOpt s.opts sect "max_dom" ≠ none) :
    maxDomainsVal { s with opts := setOpt s.opts sect "max_dom" [v] } = .ok v := by
  unfold maxDomainsVal
  rw [findOptSection_setOpt, hfind]
  simp only
  rw [getStoredList_eq_getOpt, getOpt_setOpt, if_pos ⟨rfl, rfl⟩]
  cases hget : getOpt s.opts sect "max_dom" with
  | none => exact absurd hget hpresent
  | some cur => simp [pyListGet]

/-! ## Evaluation lemmas for `match_option_length_to_domains`,
`_conform_option_value` and `set_opt_val` -/

theorem matchOption_eq_resize {α : Type} (s : NL) (l : List α) (n : ℤ)
    (h : maxDomains s = .ok n) :
    matchOptionLengthToDomains s l false true = .ok (resizeList n l) := by
  unfold matchOptionLengthToDomains resizeList
  rw [h]
  by_cases hlt : (l.length : ℤ) < n <;> simp [hlt]

theorem flatten_replicate_length {α : Type} (m : ℕ) (l : List α) :
    ((List.replicate m l).flatten).length = m * l.length := by
  induction m with
  | zero => simp
  | succ k ih => simp [List.replicate_succ, ih, Nat.succ_mul, Nat.add_comm]

theorem listMul_length {α : Type} (l : List α) (k : ℤ) :
    (listMul l k).length = k.toNat * l.length := by
  unfold listMul
  rw [flatten_replicate_length]

theorem lastSlice_length {α : Type} (l : List α) (h : l ≠ []) :
    (lastSlice l).length = 1 := by
  unfold lastSlice
  have : 1 ≤ l.length := List.length_pos.mpr h
  simp [List.length_drop]
  omega

theorem mem_lastSlice {α : Type} (l : List α) : ∀ v ∈ lastSlice l, v ∈ l :=
  fun _ hv => List.drop_subset _ l hv

theorem mem_listMul {α : Type} (l : List α) (k : ℤ) : ∀ v ∈ listMul l k, v ∈ l := by
  intro v hv
  unfold listMul at hv
  obtain ⟨c, hc, hvc⟩ := List.mem_flatten.mp hv
  rw [List.eq_of_mem_replicate hc] at hvc
  exact hvc

theorem resizeList_mem {α : Type} (n : ℤ) (l : List α) :
    ∀ v ∈ resizeList n l, v ∈ l := by
  intro v hv
  unfold resizeList at hv
  by_cases hlt : (l.length : ℤ) < n
  · rw [if_pos hlt] at hv
    rcases List.mem_append.mp hv with h | h
    · exact h
    · exact mem_lastSlice l v (mem_listMul _ _ v h)
  · rw [if_neg hlt] at hv
    exact List.take_subset _ l hv

theorem resizeList_length {α : Type} (n : ℤ) (l : List α) (hn : 0 ≤ n)
    (hl : l ≠ []) : ((resizeList n l).length : ℤ) = n := by
  unfold resizeList
  by_cases hlt : (l.length : ℤ) < n
  · rw [if_pos hlt]
    rw [List.length_append, listMul_length, lastSlice_length l hl]
    have h1 : (n - (l.length : ℤ)).toNat = n.toNat - l.length := by omega
    have h2 : l.length ≤ n.toNat := by omega
    push_cast
    omega
  · rw [if_neg hlt]
    unfold pyTakeSlice pySliceUpper
    rw [if_pos hn]
    have h2 : n.toNat ≤ l.length := by omega
    simp [List.length_take]
    omega

theorem resizeList_ne_nil (n : ℤ) (l : List PyVal) (hn : 1 ≤ n) (hl : l ≠ []) :
    resizeList n l ≠ [] := by
  intro hcon
  have := resizeList_length n l (by omega) hl
  rw [hcon] at this
  simp at this
  omega

theorem conform_list_perDomain (s : NL) (opt : String) (l : List PyVal)
    (entry : RegEntry) (n : ℤ)
    (hreg : lookupRegEntry s.registry opt = .ok entry)
    (hpd : entry.numEntries = "max_domains")
    (hn : maxDomains s = .ok n)
    (hlen : (l.length : ℤ) = n)
    (hty : ∀ v ∈ l, pyIsinstance entry.rtype v = true) :
    conformOptionValue s opt (.list l) false false = .ok l := by
  unfold conformOptionValue
  rw [hreg]
  have hnoex : ¬ ∃ x ∈ l, pyIsinstance entry.rtype x = false := by
    rintro ⟨x, hx, hfalse⟩
    rw [hty x hx] at hfalse
    simp at hfalse
  simp [hpd, hn, hlen, hnoex]

theorem conform_scalar_single (s : NL) (opt : String) (v : PyVal)
    (entry : RegEntry)
    (hreg : lookupRegEntry s.registry opt = .ok entry)
    (hpd : ¬ entry.numEntries = "max_domains")
    (hty : pyIsinstance entry.rtype v = true) :
    conformOptionValue s opt (.scalar v) false false = .ok [v] := by
  unfold conformOptionValue
  rw [hreg]
  simp [hpd, hty]

theorem setOptVal_ok_no_callback (fuel : ℕ) (s : NL) (sect opt : String)
    (vi : PyIn) (rz cv : Bool) (w cur : List PyVal) (sec : NLSection)
    (hsec : lookupA s.opts sect = some sec)
    (hopt : lookupA sec opt = some cur)
    (hconf : conformOptionValue s opt vi cv rz = .ok w)
    (hcb : s.callbacks.contains opt = false) :
    setOptVal fuel s sect opt vi rz cv =
      .ok w { s with opts := setOpt s.opts sect opt w } := by
  unfold setOptVal
  rw [hsec]
  simp only [hopt, Option.isNone_some, Bool.false_eq_true, if_false, hconf]
  rw [hcb]
  simp

theorem getOpt_elim (o : Opts) (sect opt : String) (cur : List PyVal)
    (h : getOpt o sect opt = some cur) :
    ∃ sec, lookupA o sect = some sec ∧ lookupA sec opt = some cur := by
  unfold getOpt at h
  cases hsec : lookupA o sect with
  | none => rw [hsec] at h; cases h
  | some sec =>
    rw [hsec] at h
    exact ⟨sec, rfl, by simpa using h⟩

theorem callbackSetter_unfold (f : ℕ) (st : NL) (o : String) (vi : PyIn) :
    callbackSetter f st o vi =
      (match findOptSection st o with
        | .error e => Res.err e st
        | .ok none => Res.err .namelistKeyError st
        | .ok (some sct) => setOptVal f st sct o vi false false) := rfl

theorem setOptVal_with_callback (f : ℕ) (s : NL) (sect opt : String)
    (vi : PyIn) (rz cv : Bool) (w cur : List PyVal) (sec : NLSection)
    (hsec : lookupA s.opts sect = some sec)
    (hopt : lookupA sec opt = some cur)
    (hconf : conformOptionValue s opt vi cv rz = .ok w)
    (hcb : s.callbacks.contains opt = true) :
    setOptVal (f + 1) s sect opt vi rz cv =
      (match updateOptDomainsWith (callbackSetter f) true
          { s with opts := setOpt s.opts sect opt w } with
        | .err e s2 => .err e s2
        | .ok _ s2 => .ok w s2) := by
  conv =>
    lhs
    unfold setOptVal
  rw [hsec]
  simp only [hopt, Option.isNone_some, Bool.false_eq_true, if_false, hconf]
  rw [hcb]
  simp only [if_pos rfl]
  rfl

theorem regResize_of_error (reg : RegTable) (opt : String) (n : ℤ)
    (cur : List PyVal) (e : PyErr) (h : lookupRegEntry reg opt = .error e) :
    regResize reg opt n cur = cur := by
  unfold regResize
  rw [h]

theorem regResize_of_ok (reg : RegTable) (opt : String) (n : ℤ)
    (cur : List PyVal) (entry : RegEntry)
    (h : lookupRegEntry reg opt = .ok entry) :
    regResize reg opt n cur =
      if entry.numEntries = "max_domains" then resizeList n cur else cur := by
  unfold regResize
  rw [h]

/-- Soundness of one `_update_opt_domains` walk over a key list `K` with
pairwise-distinct option names: the walk succeeds, preserves the state shape
and the domain count, leaves keys outside `K` untouched, and re-stores every
key of `K` at the value `match_option_length_to_domains` dictates (resized
when its registry entry is per-domain, unchanged otherwise). -/
theorem updateLoop_ok (f : ℕ) (n : ℤ) :
    ∀ (K : List (String × String)) (s : NL),
      DomainsWF s n →
      (∀ p ∈ K, p ∈ optKeys s.opts) →
      (K.map Prod.snd).Nodup →
      ∃ s', updateLoopWith (callbackSetter f) true K s = .ok () s' ∧
        s'.registry = s.registry ∧ s'.callbacks = s.callbacks ∧
        s'.updateFddaEnd = s.updateFddaEnd ∧
        optKeys s'.opts = optKeys s.opts ∧
        maxDomains s' = .ok n ∧
        (∀ sect opt, (sect, opt) ∉ K →
          getOpt s'.opts sect opt = getOpt s.opts sect opt) ∧
        (∀ sect opt cur, (sect, opt) ∈ K → getOpt s.opts sect opt = some cur →
          getOpt s'.opts sect opt = some (regResize s.registry opt n cur)) := by
  intro K
  induction K with
  | nil =>
    intro s hwf _ _
    exact ⟨s, rfl, rfl, rfl, rfl, rfl, hwf.maxdom,
      fun _ _ _ => rfl, fun _ _ _ h => absurd h (List.not_mem_nil _)⟩
  | cons hd rest ih =>
    intro s hwf hkeys hnd
    obtain ⟨sect₁, opt₁⟩ := hd
    have hmem₁ : (sect₁, opt₁) ∈ optKeys s.opts := hkeys _ (List.mem_cons_self _ _)
    obtain ⟨hget₁, hfind₁⟩ := hwf.keysOK sect₁ opt₁ hmem₁
    have hndrest : (rest.map Prod.snd).Nodup := (List.nodup_cons.mp hnd).2
    have hopt₁rest : opt₁ ∉ rest.map Prod.snd := (List.nodup_cons.mp hnd).1
    have hhd_rest : (sect₁, opt₁) ∉ rest := fun hmem =>
      hopt₁rest (List.mem_map.mpr ⟨(sect₁, opt₁), hmem, rfl⟩)
    cases hcur : getOpt s.opts sect₁ opt₁ with
    | none => exact absurd hcur hget₁
    | some cur =>
      cases hreg : lookupRegEntry s.registry opt₁ with
      | error e =>
        have step : updateLoopWith (callbackSetter f) true ((sect₁, opt₁) :: rest) s =
            updateLoopWith (callbackSetter f) true rest s := by
          simp only [updateLoopWith]
          rw [hcur, hreg]
        obtain ⟨s', h1, h2, h3, h4, h5, h6, h7, h8⟩ :=
          ih s hwf (fun p hp => hkeys p (List.mem_cons_of_mem _ hp)) hndrest
        refine ⟨s', by rw [step]; exact h1, h2, h3, h4, h5, h6, ?_, ?_⟩
        · intro sect opt hno
          exact h7 sect opt (fun hm => hno (List.mem_cons_of_mem _ hm))
        · intro sect opt cur₀ hmem hget
          rcases List.mem_cons.mp hmem with heq | hmem'
          · have he1 : sect = sect₁ := congrArg Prod.fst heq
            have he2 : opt = opt₁ := congrArg Prod.snd heq
            rw [he1, he2] at hget ⊢
            rw [hcur] at hget
            injection hget with hget
            subst hget
            rw [h7 sect₁ opt₁ hhd_rest, hcur, regResize_of_error s.registry opt₁ n cur e hreg]
          · exact h8 sect opt cur₀ hmem' hget
      | ok entry =>
        by_cases hpd : entry.numEntries = "max_domains"
        · obtain ⟨hne, hty, hcb, hnm⟩ :=
            hwf.perDomainOK sect₁ opt₁ cur entry hmem₁ hcur hreg hpd
          have hmatch : matchOptionLengthToDomains s cur false true =
              .ok (resizeList n cur) := matchOption_eq_resize s cur n hwf.maxdom
          have hlen : ((resizeList n cur).length : ℤ) = n :=
            resizeList_length n cur (by have := hwf.npos; omega) hne
          have htyR : ∀ v ∈ resizeList n cur, pyIsinstance entry.rtype v = true :=
            fun v hv => hty v (resizeList_mem n cur v hv)
          have hconf : conformOptionValue s opt₁ (.list (resizeList n cur)) false false =
              .ok (resizeList n cur) :=
            conform_list_perDomain s opt₁ _ entry n hreg hpd hwf.maxdom hlen htyR
          obtain ⟨sec, hsec, hopt⟩ := getOpt_elim s.opts sect₁ opt₁ cur hcur
          have hset : callbackSetter f s opt₁ (.list (resizeList n cur)) =
              .ok (resizeList n cur)
                { s with opts := setOpt s.opts sect₁ opt₁ (resizeList n cur) } := by
            rw [callbackSetter_unfold, hfind₁]
            exact setOptVal_ok_no_callback f s sect₁ opt₁ _ false false _ cur sec
              hsec hopt hconf hcb
          have step : updateLoopWith (callbackSetter f) true ((sect₁, opt₁) :: rest) s =
              updateLoopWith (callbackSetter f) true rest
                { s with opts := setOpt s.opts sect₁ opt₁ (resizeList n cur) } := by
            simp only [updateLoopWith]
            rw [hcur, hreg]
            simp only [hpd, if_true, hmatch, hset]
          have hwf₁ : DomainsWF
              { s with opts := setOpt s.opts sect₁ opt₁ (resizeList n cur) } n := by
            refine ⟨?_, hwf.npos, ?_, ?_⟩
            · rw [maxDomains_setOpt_ne s sect₁ opt₁ _ hnm]
              exact hwf.maxdom
            · intro sect opt hmem'
              rw [optKeys_setOpt] at hmem'
              obtain ⟨hg, hf⟩ := hwf.keysOK sect opt hmem'
              constructor
              · show getOpt (setOpt s.opts sect₁ opt₁ (resizeList n cur)) sect opt ≠ none
                rw [getOpt_setOpt]
                by_cases hc : sect = sect₁ ∧ opt = opt₁
                · rw [if_pos hc]
                  obtain ⟨h1, h2⟩ := hc
                  subst h1; subst h2
                  rw [hcur]
                  simp
                · rw [if_neg hc]
                  exact hg
              · rw [findOptSection_setOpt]
                exact hf
            · intro sect opt cur' entry' hmem' hget' hreg' hpd'
              rw [optKeys_setOpt] at hmem'
              replace hget' : getOpt (setOpt s.opts sect₁ opt₁ (resizeList n cur))
                  sect opt = some cur' := hget'
              rw [getOpt_setOpt] at hget'
              by_cases hc : sect = sect₁ ∧ opt = opt₁
              · rw [if_pos hc] at hget'
                obtain ⟨h1, h2⟩ := hc
                subst h1; subst h2
                rw [hcur] at hget'
                simp only [Option.map_some'] at hget'
                injection hget' with hget'
                subst hget'
                have hent : entry' = entry := by
                  rw [hreg] at hreg'
                  injection hreg' with h
                  exact h.symm
                subst hent
                exact ⟨resizeList_ne_nil n cur hwf.npos hne, htyR, hcb, hnm⟩
              · rw [if_neg hc] at hget'
                exact hwf.perDomainOK sect opt cur' entry' hmem' hget' hreg' hpd'
          obtain ⟨s', h1, h2, h3, h4, h5, h6, h7, h8⟩ :=
            ih _ hwf₁
              (by
                intro p hp
                rw [optKeys_setOpt]
                exact hkeys p (List.mem_cons_of_mem _ hp))
              hndrest
          refine ⟨s', by rw [step]; exact h1, h2, h3, h4,
            by rw [h5]; exact optKeys_setOpt s.opts sect₁ opt₁ (resizeList n cur), h6, ?_, ?_⟩
          · intro sect opt hno
            rw [h7 sect opt (fun hm => hno (List.mem_cons_of_mem _ hm))]
            show getOpt (setOpt s.opts sect₁ opt₁ (resizeList n cur)) sect opt = _
            rw [getOpt_setOpt]
            have hc : ¬ (sect = sect₁ ∧ opt = opt₁) := by
              rintro ⟨ha, hb⟩
              subst ha; subst hb
              exact hno (List.mem_cons_self _ _)
            rw [if_neg hc]
          · intro sect opt cur₀ hmem hget
            rcases List.mem_cons.mp hmem with heq | hmem'
            · have he1 : sect = sect₁ := congrArg Prod.fst heq
              have he2 : opt = opt₁ := congrArg Prod.snd heq
              rw [he1, he2] at hget ⊢
              rw [hcur] at hget
              injection hget with hget
              subst hget
              rw [h7 sect₁ opt₁ hhd_rest]
              show getOpt (setOpt s.opts sect₁ opt₁ (resizeList n cur)) sect₁ opt₁ = _
              rw [getOpt_setOpt, if_pos ⟨rfl, rfl⟩, hcur,
                regResize_of_ok s.registry opt₁ n cur entry hreg, if_pos hpd]
              rfl
            · have hne' : opt ≠ opt₁ := by
                intro hco
                subst hco
                exact hopt₁rest (List.mem_map.mpr ⟨(sect, opt), hmem', rfl⟩)
              have hget₁' : getOpt (setOpt s.opts sect₁ opt₁ (resizeList n cur))
                  sect opt = some cur₀ := by
                rw [getOpt_setOpt, if_neg (fun hc => hne' hc.2)]
                exact hget
              exact h8 sect opt cur₀ hmem' hget₁'
        · have step : updateLoopWith (callbackSetter f) true ((sect₁, opt₁) :: rest) s =
              updateLoopWith (callbackSetter f) true rest s := by
            simp only [updateLoopWith]
            rw [hcur, hreg]
            simp only [hpd, if_false]
          obtain ⟨s', h1, h2, h3, h4, h5, h6, h7, h8⟩ :=
            ih s hwf (fun p hp => hkeys p (List.mem_cons_of_mem _ hp)) hndrest
          refine ⟨s', by rw [step]; exact h1, h2, h3, h4, h5, h6, ?_, ?_⟩
          · intro sect opt hno
            exact h7 sect opt (fun hm => hno (List.mem_cons_of_mem _ hm))
          · intro sect opt cur₀ hmem hget
            rcases List.mem_cons.mp hmem with heq | hmem'
            · have he1 : sect = sect₁ := congrArg Prod.fst heq
              have he2 : opt = opt₁ := congrArg Prod.snd heq
              rw [he1, he2] at hget ⊢
              rw [hcur] at hget
              injection hget with hget
              subst hget
              rw [h7 sect₁ opt₁ hhd_rest, hcur,
                regResize_of_ok s.registry opt₁ n cur entry hreg, if_neg hpd]
            · exact h8 sect opt cur₀ hmem' hget

/-! ## Claim C4 — duplicate registry definitions

Within one table the first definition indeed wins (later re-definitions are
logged and skipped by `_parse_reg_line`), but `_add_reg_include` merges an
included file's table into the caller's with `dict.update`, which
**overwrites** entries the caller had already defined — exactly the
`registry.io_boilerplate` scenario the source's own comment (the first
occurrence is authoritative) describes.  So across an include boundary the
*last* definition wins, silently. -/

/-- C4: duplicate registry keys are only kept-first *within* one file's
table; across an `include` boundary the re-definition from the included file
overwrites the first definition.  Parsing the C4 fixture yields `opt_x`
(and `opt_a`) with the *included* file's type/section/default — the first
definitions made directly in the root file are lost, contradicting the
claim's "first definition encountered wins regardless of an include
boundary" (and the source's own io_boilerplate comment). -/
theorem c4_include_redefinition_overwrites :
    parseRegFile c4Files [] 4 "Registry" =
      .ok [("opt_a", ⟨"logical", "opt_a", some "physics", "1", "3"⟩),
           ("opt_x", ⟨"character", "opt_x", some "physics", "1", "20"⟩)] := by
  decide

/-! ## Claim C5 — type check for `real` options on integer-looking literals

The interactive value check (`_parse_option_input` rule 3c, and the inline
help shown to the user) states that a `real` value "must be parsable by
float() **and contain a decimal point**", but the implemented check
(`check_value_type` → `_type_conversions['real']` = Python `float`) only
tries `float(...)`, which succeeds on `"5"`.  So the literal `"5"` is
accepted, contradicting the claim (and the code's own comments). -/

/-- C5: the interactive value check **accepts** the integer-looking literal
`"5"` for an option of registry type `real` (both at the
`check_value_type` level and through `_parse_option_input`), instead of
rejecting it as the claim states; `"5.0"` is accepted as well. -/
theorem c5_real_check_accepts_bare_integer :
    checkValueType c5NL "my_real" [.str "5".data] = .ok [true] ∧
      parseOptionInput c5NL "my_real" "5".data = .ok [.str "5".data] ∧
      parseOptionInput c5NL "my_real" "5.0".data = .ok [.str "5.0".data] := by
  refine ⟨by decide, by decide, by decide⟩

/-! ## Claim C6 — `get_opt_val` with an out-of-range domain number

The guard is `if domainnum > len(val)` **after** the 1-based argument has
been decremented, so a request for domain `len+1` (0-based index `len`)
slips past the guard and `val[domainnum]` raises Python's own `IndexError`
instead of the promised `NamelistError`; only requests beyond `len+1` hit
the `NamelistError` branch. -/

/-- C6: requesting domain 3 of a 2-value option raises `IndexError`
(not `NamelistError` as the claim states); only from domain 4 onwards does
the `NamelistError` branch fire.  This is the `>`-for-`>=` off-by-one in the
`get_opt_val` guard. -/
theorem c6_get_opt_val_off_by_one :
    getOptVal c6NL "s" "foo" (some 3) false false = .error .indexError ∧
      getOptVal c6NL "s" "foo" (some 4) false false = .error .namelistError := by
  refine ⟨by decide, by decide⟩

theorem lookupA_mem {β : Type} (l : List (String × β)) (k : String) (v : β)
    (h : lookupA l k = some v) : (k, v) ∈ l := by
  unfold lookupA at h
  cases hf : l.find? (fun p => p.1 = k) with
  | none => rw [hf] at h; cases h
  | some p =>
    rw [hf] at h
    have hp := List.find?_some hf
    have hmem := List.mem_of_find?_eq_some hf
    simp only [Option.map_some'] at h
    injection h with h
    simp only [decide_eq_true_eq] at hp
    obtain ⟨p1, p2⟩ := p
    simp only at hp h
    subst hp; subst h
    exact hmem

theorem mem_optKeys_of_getOpt (o : Opts) (sect opt : String) (v : List PyVal)
    (h : getOpt o sect opt = some v) : (sect, opt) ∈ optKeys o := by
  obtain ⟨sec, hsec, hopt⟩ := getOpt_elim o sect opt v h
  have h1 := lookupA_mem _ _ _ hsec
  have h2 := lookupA_mem _ _ _ hopt
  unfold optKeys
  exact List.mem_flatMap.mpr ⟨(sect, sec), h1, List.mem_map.mpr ⟨(opt, v), h2, rfl⟩⟩

theorem updateOptDomainsWith_eq (g : NL → String → PyIn → Res (List PyVal))
    (trim : Bool) (s : NL) (n : ℤ) (h : maxDomains s = .ok n) :
    updateOptDomainsWith g trim s = updateLoopWith g trim (optKeys s.opts) s := by
  unfold updateOptDomainsWith
  rw [h]

theorem maxDomains_of_val_int (s : NL) (n : ℤ)
    (h : maxDomainsVal s = .ok (.int n)) : maxDomains s = .ok n := by
  unfold maxDomains
  rw [h]

/-! ## Claim C2 — changing `max_dom` resizes every per-domain option

Setting `max_dom` through `set_opt_val` fires the `_update_opt_domains`
callback, which re-stores every option whose registry entry is per-domain at
the value `match_option_length_to_domains` dictates: pad by repeating the
last element when shorter than the new domain count, truncate when longer.
Options the registry does not mark per-domain are untouched. -/

/-- C2: on any namelist state satisfying the well-formedness conditions the
startup hooks establish, setting `max_dom` to `n ≥ 1` succeeds and leaves
every registry-per-domain option resized to exactly `n` values (last-value
padding / truncation), with every other option unchanged. -/
theorem c2_set_max_dom_resizes (f : ℕ) (s : NL) (sectMD : String) (n : ℤ)
    (mdEntry : RegEntry) (curMD : List PyVal)
    (hmd_get : getOpt s.opts sectMD "max_dom" = some curMD)
    (hmd_find : findOptSection s "max_dom" = .ok (some sectMD))
    (hmd_reg : lookupRegEntry s.registry "max_dom" = .ok mdEntry)
    (hmd_card : ¬ mdEntry.numEntries = "max_domains")
    (hmd_ty : pyIsinstance mdEntry.rtype (.int n) = true)
    (hmd_cb : s.callbacks.contains "max_dom" = true)
    (hnpos : 1 ≤ n)
    (hkeys : ∀ sect opt, (sect, opt) ∈ optKeys s.opts →
      getOpt s.opts sect opt ≠ none ∧ findOptSection s opt = .ok (some sect))
    (hnodup : ((optKeys s.opts).map Prod.snd).Nodup)
    (hpd : ∀ sect opt cur entry, (sect, opt) ∈ optKeys s.opts →
      getOpt s.opts sect opt = some cur →
      lookupRegEntry s.registry opt = .ok entry →
      entry.numEntries = "max_domains" →
      cur ≠ [] ∧ (∀ v ∈ cur, pyIsinstance entry.rtype v = true) ∧
        s.callbacks.contains opt = false ∧ opt ≠ "max_dom") :
    ∃ s', setOptVal (f + 1) s sectMD "max_dom" (.scalar (.int n)) false false =
        .ok [.int n] s' ∧
      getOpt s'.opts sectMD "max_dom" = some [.int n] ∧
      (∀ sect opt cur entry, (sect, opt) ∈ optKeys s.opts →
        getOpt s.opts sect opt = some cur → opt ≠ "max_dom" →
        lookupRegEntry s.registry opt = .ok entry →
        (entry.numEntries = "max_domains" →
          getOpt s'.opts sect opt = some (resizeList n cur)) ∧
        (entry.numEntries ≠ "max_domains" →
          getOpt s'.opts sect opt = some cur)) := by
  have hconf : conformOptionValue s "max_dom" (.scalar (.int n)) false false =
      .ok [.int n] :=
    conform_scalar_single s "max_dom" (.int n) mdEntry hmd_reg hmd_card hmd_ty
  obtain ⟨sec, hsec, hopt⟩ := getOpt_elim s.opts sectMD "max_dom" curMD hmd_get
  have hmain := setOptVal_with_callback f s sectMD "max_dom" (.scalar (.int n))
    false false [.int n] curMD sec hsec hopt hconf hmd_cb
  set s₁ : NL := { s with opts := setOpt s.opts sectMD "max_dom" [.int n] } with hs₁
  have hmax₁ : maxDomains s₁ = .ok n :=
    maxDomains_of_val_int s₁ n
      (maxDomains_after_set_max_dom s sectMD (.int n) hmd_find
        (fun hnone => by rw [hmd_get] at hnone; cases hnone))
  have hgetOpt₁ : ∀ sect opt, getOpt s₁.opts sect opt =
      if sect = sectMD ∧ opt = "max_dom" then
        (getOpt s.opts sectMD "max_dom").map (fun _ => [PyVal.int n])
      else getOpt s.opts sect opt := by
    intro sect opt
    exact getOpt_setOpt s.opts sectMD "max_dom" [.int n] sect opt
  have hwf₁ : DomainsWF s₁ n := by
    refine ⟨hmax₁, hnpos, ?_, ?_⟩
    · intro sect opt hmem
      have hmem' : (sect, opt) ∈ optKeys s.opts := by
        rw [show optKeys s₁.opts = optKeys s.opts from optKeys_setOpt ..] at hmem
        exact hmem
      obtain ⟨hg, hf⟩ := hkeys sect opt hmem'
      constructor
      · rw [hgetOpt₁]
        by_cases hc : sect = sectMD ∧ opt = "max_dom"
        · rw [if_pos hc, hmd_get]
          simp
        · rw [if_neg hc]
          exact hg
      · rw [show findOptSection s₁ opt = findOptSection s opt from
          findOptSection_setOpt ..]
        exact hf
    · intro sect opt cur' entry' hmem hget' hreg' hpd'
      have hmem' : (sect, opt) ∈ optKeys s.opts := by
        rw [show optKeys s₁.opts = optKeys s.opts from optKeys_setOpt ..] at hmem
        exact hmem
      by_cases hmd : opt = "max_dom"
      · have hreg2 : lookupRegEntry s.registry opt = .ok entry' := hreg'
        rw [hmd, hmd_reg] at hreg2
        injection hreg2 with hr
        subst hr
        exact absurd hpd' hmd_card
      · rw [hgetOpt₁, if_neg (fun hc => hmd hc.2)] at hget'
        exact hpd sect opt cur' entry' hmem' hget' hreg' hpd'
  obtain ⟨s', hrun, hreg', hcb', hfdda', hkeys', hmax', hunch', hdesc'⟩ :=
    updateLoop_ok f n (optKeys s₁.opts) s₁ hwf₁ (fun p hp => hp)
      (by rw [show optKeys s₁.opts = optKeys s.opts from optKeys_setOpt ..]
          exact hnodup)
  have hupd : updateOptDomainsWith (callbackSetter f) true s₁ = .ok () s' := by
    rw [updateOptDomainsWith_eq _ _ _ n hmax₁]
    exact hrun
  refine ⟨s', ?_, ?_, ?_⟩
  · rw [hmain, hupd]
  · have hmemMD : (sectMD, "max_dom") ∈ optKeys s₁.opts := by
      rw [show optKeys s₁.opts = optKeys s.opts from optKeys_setOpt ..]
      exact mem_optKeys_of_getOpt s.opts sectMD "max_dom" curMD hmd_get
    have hget₁MD : getOpt s₁.opts sectMD "max_dom" = some [.int n] := by
      rw [hgetOpt₁, if_pos ⟨rfl, rfl⟩, hmd_get]
      rfl
    have := hdesc' sectMD "max_dom" [.int n] hmemMD hget₁MD
    have h0 : lookupRegEntry s₁.registry "max_dom" = .ok mdEntry := hmd_reg
    rw [regResize_of_ok s₁.registry "max_dom" n [PyVal.int n] mdEntry h0,
      if_neg hmd_card] at this
    exact this
  · intro sect opt cur entry hmem hget hnmd hreg
    have hmem₁ : (sect, opt) ∈ optKeys s₁.opts := by
      rw [show optKeys s₁.opts = optKeys s.opts from optKeys_setOpt ..]
      exact hmem
    have hget₁ : getOpt s₁.opts sect opt = some cur := by
      rw [hgetOpt₁, if_neg (fun hc => hnmd hc.2)]
      exact hget
    have := hdesc' sect opt cur hmem₁ hget₁
    have h0 : lookupRegEntry s₁.registry opt = .ok entry := hreg
    rw [regResize_of_ok s₁.registry opt n cur entry h0] at this
    constructor
    · intro hyes
      rw [if_pos hyes] at this
      exact this
    · intro hno
      rw [if_neg hno] at this
      exact this

/-- C2 witness: the spec's example scenario 1 — with `max_dom=1` and
`e_we=[100]`, setting `max_dom` to 3 yields `e_we=[100,100,100]` without the
caller touching `e_we`. -/
theorem c2_set_max_dom_resizes_witness :
    (1 : ℤ) ≤ 3 ∧
      ∃ s', setOptVal 5 c2NL "domains" "max_dom" (.scalar (.int 3)) false false =
          .ok [.int 3] s' ∧
        getOpt s'.opts "domains" "e_we" = some [.int 100, .int 100, .int 100] := by
  refine ⟨by decide, ?_⟩
  obtain ⟨s', h1, _, h3⟩ :=
    c2_set_max_dom_resizes 4 c2NL "domains" 3 (scalarEntry .integer) [.int 1]
      (by decide) (by decide) (by decide) (by decide) (by decide) (by decide)
      (by decide)
      (by
        intro sect opt hmem
        have hmem' : (sect, opt) ∈
            [("domains", "max_dom"), ("domains", "e_we")] := hmem
        simp only [List.mem_cons, List.mem_singleton, List.not_mem_nil,
          or_false] at hmem'
        rcases hmem' with h | h <;>
          (injection h with ha hb; subst ha; subst hb;
            exact ⟨by decide, by decide⟩))
      (by decide)
      (by
        intro sect opt cur entry hmem hget hreg hpdE
        have hmem' : (sect, opt) ∈
            [("domains", "max_dom"), ("domains", "e_we")] := hmem
        simp only [List.mem_cons, List.mem_singleton, List.not_mem_nil,
          or_false] at hmem'
        rcases hmem' with h | h
        · injection h with ha hb
          subst ha; subst hb
          rw [show lookupRegEntry c2NL.registry "max_dom" =
              .ok (scalarEntry .integer) from by decide] at hreg
          injection hreg with hreg
          subst hreg
          exact absurd hpdE (by decide)
        · injection h with ha hb
          subst ha; subst hb
          rw [show getOpt c2NL.opts "domains" "e_we" =
              some [PyVal.int 100] from by decide] at hget
          injection hget with hget
          subst hget
          rw [show lookupRegEntry c2NL.registry "e_we" =
              .ok (perDomainEntry .integer) from by decide] at hreg
          injection hreg with hreg
          subst hreg
          refine ⟨by decide, ?_, by decide, by decide⟩
          intro v hv
          have hv' : v ∈ [PyVal.int 100] := hv
          simp only [List.mem_singleton] at hv'
          subst hv'
          decide)
  refine ⟨s', h1, ?_⟩
  have := (h3 "domains" "e_we" [.int 100] (perDomainEntry .integer)
    (by decide) (by decide) (by decide) (by decide)).1 (by decide)
  rw [this]
  rw [show resizeList 3 [PyVal.int 100] =
    [PyVal.int 100, PyVal.int 100, PyVal.int 100] from by decide]

/-! ## Claim C10 — atomicity of `set_opt_val` under errors

All validation errors (`NamelistKeyError` for an unknown section/option,
`NamelistFormatError` for a wrong value count, `NamelistTypeError` for a
type failure, and any error raised while conforming) are raised **before**
`self.opts[sectname][optname] = vals`, so they leave `opts` untouched.  But
the registered callback runs **after** the store: when the `max_dom`
callback re-issues `set_opt_val_no_sect` for an option that happens to live
in two sections, the resulting `NamelistKeyError` propagates out of
`set_opt_val` with the `max_dom` mutation already committed — so the claim's
"any exception leaves opts exactly as before" is false. -/

/-- C10 counterexample: on the C10 fixture, setting `max_dom` raises (the
callback's `set_opt_val_no_sect('foo', …)` finds `foo` in two sections and
raises `NamelistKeyError` — one of the very "unknown/ambiguous option"
errors the claim enumerates), yet the namelist state after the call differs
from the state before: `max_dom` has already been changed to 2. -/
theorem c10_set_opt_val_not_atomic :
    (setOptVal 5 c10NL "domains" "max_dom" (.scalar (.int 2)) false false).isErr = true ∧
      (setOptVal 5 c10NL "domains" "max_dom" (.scalar (.int 2)) false false).state ≠ c10NL ∧
      getOpt (setOptVal 5 c10NL "domains" "max_dom"
        (.scalar (.int 2)) false false).state.opts "domains" "max_dom" = some [.int 2] := by
  refine ⟨by decide, by decide, by decide⟩

/-- C10 amended: `set_opt_val` is atomic for every error raised before the
new value is stored — an unknown section/option or any failure of
`_conform_option_value` (wrong value-list length, type failure, registry
lookup failure) returns with `opts` exactly as before the call. -/
theorem c10_amended_atomic_before_store (fuel : ℕ) (s : NL) (sect opt : String)
    (valsIn : PyIn) (rz cv : Bool)
    (h : getOpt s.opts sect opt = none ∨
      (conformOptionValue s opt valsIn cv rz).isOk = false) :
    ∃ e, setOptVal fuel s sect opt valsIn rz cv = .err e s := by
  cases hsec : lookupA s.opts sect with
  | none => exact ⟨.namelistKeyError, by simp [setOptVal, hsec]⟩
  | some sec =>
    cases hopt : lookupA sec opt with
    | none =>
      refine ⟨.namelistKeyError, ?_⟩
      simp [setOptVal, hsec, hopt]
    | some v =>
      have hconf : (conformOptionValue s opt valsIn cv rz).isOk = false := by
        rcases h with h | h
        · exact absurd h (by simp [getOpt, hsec, hopt])
        · exact h
      cases hc : conformOptionValue s opt valsIn cv rz with
      | ok w => rw [hc] at hconf; simp [Except.isOk, Except.toBool] at hconf
      | error e =>
        refine ⟨e, ?_⟩
        simp [setOptVal, hsec, hopt, hc]

/-- C10 amended, witness: a concrete pre-store failure (unknown option
`bar`) leaves the C6 fixture untouched. -/
theorem c10_amended_atomic_before_store_witness :
    (getOpt c6NL.opts "s" "bar" = none ∨
      (conformOptionValue c6NL "bar" (.scalar (.int 1)) false false).isOk = false) ∧
      ∃ e, setOptVal 5 c6NL "s" "bar" (.scalar (.int 1)) false false = .err e c6NL :=
  ⟨Or.inl (by decide),
    c10_amended_atomic_before_store 5 c6NL "s" "bar" (.scalar (.int 1)) false false
      (Or.inl (by decide))⟩

/-! ## Claim C3 — what `cmd_set_other_opt` rejects

The date-family branch does raise `RuntimeError` before any mutation, but
the domain-shared branch does the opposite of what the claim says: instead
of rejecting the option it writes it to the WPS namelist and then to the
WRF namelist (`set_opt_val_no_sect` on each). -/

/-- C3 counterexample: `e_we` is a domain-shared option, yet
`cmd_set_other_opt('e_we', 200)` on the C3 container raises nothing and
mutates the container (both namelists now hold `e_we = 200`). -/
theorem c3_domain_opt_not_rejected :
    domainOpts.contains "e_we" = true ∧
      (cmdSetOtherOpt 5 c3C "e_we" (.scalar (.int 200)) false).isErr = false ∧
      (cmdSetOtherOpt 5 c3C "e_we" (.scalar (.int 200)) false).state ≠ c3C ∧
      getOpt (cmdSetOtherOpt 5 c3C "e_we"
          (.scalar (.int 200)) false).state.wrf.opts "domains" "e_we" =
        some [.int 200] ∧
      getOpt (cmdSetOtherOpt 5 c3C "e_we"
          (.scalar (.int 200)) false).state.wps.opts "geogrid" "e_we" =
        some [.int 200] := by
  refine ⟨by decide, by decide, by decide, by decide, by decide⟩

/-- C3 amended: `cmd_set_other_opt` rejects only the date-family options
(`RuntimeError`, container untouched); a domain-shared option is instead
written to both namelists — when the two `set_opt_val_no_sect` calls
succeed, the call returns with the WPS and WRF namelists replaced by their
respective updated states. -/
theorem c3_amended_restricted_opts (fuel : ℕ) (c : Container) (optname : String)
    (v : PyIn) (fwo : Bool) (r₁ r₂ : List PyVal) (wps' wrf' : NL) :
    (optname ∈ dateOpts →
      cmdSetOtherOpt fuel c optname v fwo = .err .runtimeError c) ∧
    (optname ∈ domainOpts →
      setOptValNoSect fuel c.wps optname v false false = .ok r₁ wps' →
      setOptValNoSect fuel c.wrf optname v false false = .ok r₂ wrf' →
      cmdSetOtherOpt fuel c optname v false =
        .ok () { c with wps := wps', wrf := wrf' }) := by
  constructor
  · intro hdate
    have hd : dateOpts.contains optname = true :=
      List.elem_eq_true_of_mem hdate
    unfold cmdSetOtherOpt
    rw [if_pos hd]
  · intro hdom h1 h2
    have hflags : dateOpts.contains optname = false ∧
        domainOpts.contains optname = true := by
      fin_cases hdom <;> exact ⟨by decide, by decide⟩
    simp only [cmdSetOtherOpt, hflags.1, hflags.2, Bool.false_eq_true,
      if_false, if_true]
    rw [h1]
    dsimp only
    rw [h2]

/-- C3 amended, witness: on the C3 container, `start_date` (a date option)
is rejected with `RuntimeError` and no state change, while `e_we` (a domain
option) goes through to both namelists. -/
theorem c3_amended_restricted_opts_witness :
    cmdSetOtherOpt 5 c3C "start_date" (.scalar (.int 0)) false =
        .err .runtimeError c3C ∧
      cmdSetOtherOpt 5 c3C "e_we" (.scalar (.int 200)) false =
        .ok () { c3C with wps := c3WpsNL', wrf := c3WrfNL' } :=
  ⟨(c3_amended_restricted_opts 5 c3C "start_date" (.scalar (.int 0)) false
      [] [] c3WpsNL' c3WrfNL').1 (by decide),
    (c3_amended_restricted_opts 5 c3C "e_we" (.scalar (.int 200)) false
      [.int 200] [.int 200] c3WpsNL' c3WrfNL').2 (by decide)
      (by decide) (by decide)⟩

/-! ## Claim C7 — the `@A:B` selector of the interactive input grammar -/

theorem takeWhile_append_all {p : Char → Bool} (l t : List Char)
    (hl : ∀ c ∈ l, p c = true) (ht : ∀ c, t.head? = some c → p c = false) :
    (l ++ t).takeWhile p = l := by
  induction l with
  | nil =>
    cases t with
    | nil => rfl
    | cons c cs => simp [List.takeWhile_cons, ht c rfl]
  | cons a l ih =>
    simp only [List.cons_append, List.takeWhile_cons,
      hl a (List.mem_cons_self a l), if_true]
    rw [ih (fun c hc => hl c (List.mem_cons_of_mem a hc))]

theorem dropWhile_head_false {p : Char → Bool} (l : List Char)
    (h : ∀ c, l.head? = some c → p c = false) : l.dropWhile p = l := by
  cases l with
  | nil => rfl
  | cons c cs => simp [List.dropWhile_cons, h c rfl]

theorem tryAtCmdAt_none (s : List Char) (h : '@' ∉ s) : tryAtCmdAt s = none := by
  simp only [tryAtCmdAt]
  split
  · rename_i rest heq
    have hm : '@' ∈ s := by
      refine List.mem_of_mem_drop (n := (s.takeWhile Char.isWhitespace).length) ?_
      rw [heq]; exact List.mem_cons_self _ _
    exact absurd hm h
  · rfl

theorem subAtCmdAux_no_at (f : ℕ) (s : List Char) (h : '@' ∉ s) :
    subAtCmdAux f s = s := by
  induction f generalizing s with
  | zero => rfl
  | succ f ih =>
    cases s with
    | nil => rfl
    | cons ch rest =>
      simp only [subAtCmdAux, tryAtCmdAt_none _ h]
      rw [ih rest (fun hm => h (List.mem_cons_of_mem ch hm))]

theorem tryAtCmdAt_structured (dsA dsB rest : List Char)
    (hA : ∀ c ∈ dsA, c.isDigit = true) (hB : ∀ c ∈ dsB, c.isDigit = true)
    (hr : ∀ c, rest.head? = some c → c.isDigit = false) :
    tryAtCmdAt ('@' :: (dsA ++ ':' :: (dsB ++ rest))) =
      some (1 + dsA.length + 1 + dsB.length, dsA, true, dsB) := by
  have h1 : (dsA ++ ':' :: (dsB ++ rest)).takeWhile Char.isDigit = dsA :=
    takeWhile_append_all dsA _ hA (fun c hc => by
      injection hc with hc; subst hc; decide)
  have h3 : (dsB ++ rest).takeWhile Char.isDigit = dsB :=
    takeWhile_append_all dsB rest hB hr
  simp [tryAtCmdAt, List.takeWhile_cons,
    show Char.isWhitespace '@' = false from by decide, h1, List.drop_left, h3]

theorem subAtCmd_structured (dsA dsB valsStr : List Char)
    (hA : ∀ c ∈ dsA, c.isDigit = true) (hB : ∀ c ∈ dsB, c.isDigit = true)
    (hno : '@' ∉ valsStr) :
    subAtCmd ('@' :: (dsA ++ ':' :: (dsB ++ (' ' :: valsStr)))) = ' ' :: valsStr := by
  have hr : ∀ c, (' ' :: valsStr).head? = some c → c.isDigit = false := by
    intro c hc; injection hc with hc; subst hc; decide
  have htry := tryAtCmdAt_structured dsA dsB (' ' :: valsStr) hA hB hr
  have hsplit : ('@' :: (dsA ++ ':' :: (dsB ++ (' ' :: valsStr)))) =
      ('@' :: (dsA ++ ':' :: dsB)) ++ (' ' :: valsStr) := by
    simp
  have hlen : ('@' :: (dsA ++ ':' :: dsB)).length = 1 + dsA.length + 1 + dsB.length := by
    simp [List.length_cons, List.length_append]; omega
  have hdrop : ('@' :: (dsA ++ ':' :: (dsB ++ (' ' :: valsStr)))).drop
      (1 + dsA.length + 1 + dsB.length) = ' ' :: valsStr := by
    rw [hsplit, List.drop_left' hlen]
  show subAtCmdAux (('@' :: (dsA ++ ':' :: (dsB ++ (' ' :: valsStr)))).length) _ = _
  rw [List.length_cons]
  simp only [subAtCmdAux, htry]
  rw [hdrop]
  refine subAtCmdAux_no_at _ _ ?_
  intro hm
  rcases List.mem_cons.mp hm with h | h
  · exact absurd h (by decide)
  · exact hno h

theorem atCmdSlice_both (dsA dsB : List Char) (hA : dsA ≠ []) (hB : dsB ≠ []) :
    atCmdSlice dsA true dsB =
      .ok (some ((digitsVal dsA : ℤ) - 1), some ((digitsVal dsB : ℤ) - 1 + 1)) := by
  simp [atCmdSlice, hA, hB]

/-- C7: the `@A:B` selector of `_parse_option_input` addresses the inclusive
1-based range of domains `A` through `B` and replaces exactly those
positions with the supplied comma-separated values, leaving all other
positions (`take (A-1)` before, `drop B` after) unchanged.  The input is the
literal character string `@A:B v1,…,vk`; the hypotheses say the digit runs
denote `A` and `B`, the namelist stores `cur` (of length `max_dom = n`) for
the per-domain option, `1 ≤ A ≤ B ≤ n`, exactly `B - A + 1` values are
supplied, and each value passes the registry type check. -/
theorem c7_at_range_replaces (s : NL) (optname sect : String) (regOpt : RegEntry)
    (cur : List PyVal) (n A B : ℕ) (dsA dsB valsStr : List Char)
    (hA : ∀ c ∈ dsA, c.isDigit = true) (hAne : dsA ≠ [])
    (hB : ∀ c ∈ dsB, c.isDigit = true) (hBne : dsB ≠ [])
    (hAval : digitsVal dsA = A) (hBval : digitsVal dsB = B)
    (hno : '@' ∉ valsStr)
    (hvh : ∀ c, valsStr.head? = some c → c.isWhitespace = false ∧ c ≠ ',')
    (hvl : ∀ c, valsStr.getLast? = some c → c.isWhitespace = false ∧ c ≠ ',')
    (hreg : lookupRegEntry s.registry optname = .ok regOpt)
    (hpd : regOpt.numEntries = "max_domains")
    (hlog : regOpt.rtype ≠ RegType.logical)
    (hmax : maxDomains s = .ok (n : ℤ))
    (hsect : findOptSection s optname = .ok (some sect))
    (hcur : getStoredList s sect optname = .ok cur)
    (hcurlen : cur.length = n)
    (hbounds : 1 ≤ A ∧ A ≤ B ∧ B ≤ n)
    (hcount : ((valsStr.splitOn ',').map pyStrip).length = B - A + 1)
    (htypes : ∀ t ∈ (valsStr.splitOn ',').map pyStrip,
      (pyConvert regOpt.rtype (.str t)).isOk = true) :
    parseOptionInput s optname ('@' :: (dsA ++ ':' :: (dsB ++ (' ' :: valsStr)))) =
      .ok (cur.take (A - 1) ++ ((valsStr.splitOn ',').map pyStrip).map PyVal.str
        ++ cur.drop B) := by
  obtain ⟨hA1, hAB, hBn⟩ := hbounds
  have hr : ∀ c, (' ' :: valsStr).head? = some c → c.isDigit = false := by
    intro c hc; injection hc with hc; subst hc; decide
  have htry := tryAtCmdAt_structured dsA dsB (' ' :: valsStr) hA hB hr
  have hsub := subAtCmd_structured dsA dsB valsStr hA hB hno
  have hd1 : (' ' :: valsStr).dropWhile (fun ch => ch.isWhitespace ∨ ch = ',') =
      valsStr := by
    rw [List.dropWhile_cons, if_pos (by decide)]
    exact dropWhile_head_false valsStr (fun c hc => by
      obtain ⟨h1, h2⟩ := hvh c hc
      simp [h1, h2])
  have hd2 : valsStr.reverse.dropWhile (fun ch => ch.isWhitespace ∨ ch = ',') =
      valsStr.reverse := by
    refine dropWhile_head_false _ (fun c hc => ?_)
    rw [List.head?_reverse] at hc
    obtain ⟨h1, h2⟩ := hvl c hc
    simp [h1, h2]
  have hpd' : isOptionPerDomain s optname = .ok true := by
    simp [isOptionPerDomain, hreg, hpd, Except.map]
  have hmatch : matchOptionLengthToDomains s cur false true = .ok cur := by
    simp only [matchOptionLengthToDomains, hmax]
    rw [if_neg (by omega), if_neg (by simp), if_pos (by trivial)]
    have : pyTakeSlice cur ((n : ℕ) : ℤ) = cur := by
      simp [pyTakeSlice, pySliceUpper, hcurlen]
    rw [this]
  have hget : getOptValNoSect s optname none true false = .ok (.many cur) := by
    simp only [getOptValNoSect, hsect, getOptVal, hcur, hpd', hmatch]
    rfl
  have hslice : pySliceLength ((n : ℤ)).toNat (some ((A : ℤ) - 1))
      (some ((B : ℤ) - 1 + 1)) = B - A + 1 := by
    simp only [pySliceLength, pyClampIndex]
    rw [if_pos (by omega), if_pos (by omega)]
    omega
  have hlo : pyClampIndex cur.length (some ((A : ℤ) - 1)) 0 = A - 1 := by
    simp only [pyClampIndex]
    rw [if_pos (by omega)]
    omega
  have hhi : pyClampIndex cur.length (some ((B : ℤ) - 1 + 1)) cur.length = B := by
    simp only [pyClampIndex]
    rw [if_pos (by omega)]
    omega
  have hall : (((valsStr.splitOn ',').map pyStrip).map
      (fun v => (pyConvert regOpt.rtype (.str v)).isOk)).all id = true := by
    rw [List.all_eq_true]
    intro b hb
    rw [List.mem_map] at hb
    obtain ⟨t, ht, rfl⟩ := hb
    simpa using htypes t ht
  simp only [parseOptionInput, htry, hsub, hd1, hd2, List.reverse_reverse,
    atCmdSlice_both dsA dsB hAne hBne, hAval, hBval, hpd', hreg, hmax, hget]
  rw [if_neg (by simp), if_pos trivial]
  rw [if_neg (by omega : ¬ ((n : ℤ) < 0)),
    if_neg (by rw [hcount, hslice]; exact fun hne => hne rfl)]
  dsimp only
  simp only [if_neg hlog]
  rw [if_neg (not_not_intro hall)]
  simp only [pySetSlice, hlo, hhi]
  rw [show max (A - 1) B = B from by omega]

/-- C7 witness: the spec's example scenario 2 on the C7 fixture — input
`"@2:3 5,6"` against the 4-domain option `foo = [1,2,3,4]` parses to
`[1,"5","6",4]` (positions 2–3 replaced, 1 and 4 untouched), and pushing the
parse result through `set_opt_val_no_sect` with type conversion stores
`foo = [1,5,6,4]`. -/
theorem c7_at_range_replaces_witness :
    parseOptionInput c7NL "foo" "@2:3 5,6".data =
        .ok [.int 1, .str ['5'], .str ['6'], .int 4] ∧
      userApplyOptionInput 5 c7NL "foo" "@2:3 5,6".data =
        .ok [.int 1, .int 5, .int 6, .int 4]
          { c7NL with opts := [("domains", [("max_dom", [.int 4]),
              ("foo", [.int 1, .int 5, .int 6, .int 4])])] } := by
  constructor
  · have h := c7_at_range_replaces c7NL "foo" "domains" (perDomainEntry .integer)
      [.int 1, .int 2, .int 3, .int 4] 4 2 3 ['2'] ['3'] "5,6".data
      (by decide) (by decide) (by decide) (by decide) (by decide) (by decide)
      (by decide)
      (by intro c hc; injection hc with hc; subst hc; exact ⟨by decide, by decide⟩)
      (by intro c hc;
          have hc' : some '6' = some c := hc
          injection hc' with hc'; subst hc'; exact ⟨by decide, by decide⟩)
      (by decide) (by decide) (by decide) (by decide) (by decide) (by decide)
      (by decide) (by decide) (by decide)
      (by intro t ht;
          have ht' : t ∈ [['5'], ['6']] := ht
          rcases List.mem_cons.mp ht' with h | h
          · subst h; decide
          · have h' : t = ['6'] := by simpa using h
            subst h'; decide)
    rw [show ("@2:3 5,6".data : List Char) =
      '@' :: (['2'] ++ ':' :: (['3'] ++ (' ' :: "5,6".data))) from by decide]
    rw [h]
    decide
  · decide

/-! ## Claim C8 — the dx/dy transforms are mutual inverses -/

theorem pyListGet_int {α : Type} (l : List α) (i : ℤ) (v : α) (h0 : 0 ≤ i)
    (h : l.get? i.toNat = some v) : pyListGet l i = .ok v := by
  have hlt : i.toNat < l.length := by
    rcases List.get?_eq_some.mp h with ⟨hl, _⟩
    exact hl
  simp only [pyListGet, show ¬ i < 0 from by omega, if_false]
  rw [dif_pos ⟨h0, hlt⟩]
  have h2 : some (l.get ⟨i.toNat, hlt⟩) = some v := by
    rw [← List.get?_eq_get hlt]; exact h
  injection h2 with h3
  rw [h3]

theorem pyListSet_int {α : Type} (l : List α) (i : ℤ) (v : α) (h0 : 0 ≤ i)
    (h : i.toNat < l.length) : pyListSet l i v = .ok (l.set i.toNat v) := by
  simp only [pyListSet]
  rw [if_neg (by omega : ¬ i < 0)]
  rw [if_pos ⟨h0, h⟩]

theorem set_append_length {α : Type} (l₁ : List α) (a : α) (l₂ : List α) (v : α)
    (k : ℕ) (hk : k = l₁.length) :
    (l₁ ++ a :: l₂).set k v = l₁ ++ v :: l₂ := by
  subst hk
  induction l₁ with
  | nil => rfl
  | cons x t ih => simp [List.set, ih]

theorem set_take_replicate (dx : List ℚ) (n i : ℕ) (v c : ℚ)
    (hlen : dx.length = n) (hin : i < n) (hv : dx.get? i = some v) :
    (dx.take i ++ List.replicate (n - i) c).set i v =
      dx.take (i + 1) ++ List.replicate (n - (i + 1)) c := by
  have hi : i ≤ dx.length := by omega
  have htl : (dx.take i).length = i := by
    simp only [List.length_take]; omega
  have hrep : List.replicate (n - i) c = c :: List.replicate (n - (i + 1)) c := by
    rw [show n - i = (n - (i + 1)) + 1 from by omega, List.replicate_succ]
  rw [hrep, set_append_length _ _ _ _ i htl.symm, List.take_succ]
  rw [show dx[i]? = some v from by rw [← List.get?_eq_getElem?]; exact hv]
  simp

theorem get?_take_append_replicate_lt (dx : List ℚ) (n i j : ℕ) (c : ℚ)
    (hj : j < i) (hi : i ≤ dx.length) :
    (dx.take i ++ List.replicate (n - i) c).get? j = dx.get? j := by
  rw [List.get?_append (by simp only [List.length_take]; omega)]
  exact List.get?_take hj

theorem get?_take_append_replicate_self (dx : List ℚ) (n i : ℕ) (c : ℚ)
    (hin : i < n) (hi : i ≤ dx.length) :
    (dx.take i ++ List.replicate (n - i) c).get? i = some c := by
  rw [List.get?_append_right (by simp only [List.length_take]; omega)]
  rw [show i - (dx.take i).length = 0 from by simp only [List.length_take]; omega]
  rw [show n - i = (n - i - 1) + 1 from by omega, List.replicate_succ]
  rfl

/-- A domain whose dx value is already computed (non-negative) makes
`set_domain_dxy` return immediately without touching the state. -/
theorem setDomainDxy_done (parents ratios : List PyVal) (fuel : ℕ) (st : DxyState)
    (dn : ℤ) (q : ℚ) (h0 : 0 ≤ dn - 1) (hget : st.out.get? (dn - 1).toNat = some q)
    (hq : 0 ≤ q) :
    setDomainDxy parents ratios fuel st dn = .ok st := by
  rw [setDomainDxy]
  rw [pyListGet_int st.out (dn - 1) q h0 hget]
  dsimp only
  rw [if_pos hq]

/-- One consistent step of the `_wps2wrf_dxdy` driver loop: with domains
`1..i` already filled in from `dx`, processing domain `i+1` (whose parent is
an earlier domain and whose stored value satisfies the parent/ratio
recurrence) extends the computed prefix by one. -/
theorem c8_step (parents ratios : List PyVal) (dx : List ℚ) (n i fuel : ℕ)
    (hlen : dx.length = n) (h1 : 1 ≤ i) (hin : i < n)
    (hpos : ∀ q ∈ dx, 0 ≤ q)
    (hstep : ∃ (p : ℤ) (rv : PyVal) (r qp : ℚ),
      pyListGet parents (i : ℤ) = .ok (.int p) ∧ 1 ≤ p ∧ p ≤ (i : ℤ) ∧
      pyListGet ratios (i : ℤ) = .ok rv ∧ rv.numView = some r ∧ r ≠ 0 ∧
      dx.get? (p - 1).toNat = some qp ∧ dx.get? i = some (qp / r)) :
    setDomainDxy parents ratios fuel
      ⟨dx.take i ++ List.replicate (n - i) (-1), []⟩ ((i : ℤ) + 1) =
      .ok ⟨dx.take (i + 1) ++ List.replicate (n - (i + 1)) (-1), []⟩ := by
  obtain ⟨p, rv, r, qp, hp, hp1, hpi, hr, hrv, hr0, hqp, hqi⟩ := hstep
  have hidx : ((i : ℤ) + 1 - 1) = (i : ℤ) := by omega
  have houti : pyListGet
      (dx.take i ++ List.replicate (n - i) ((-1 : ℚ))) ((i : ℤ)) = .ok (-1) := by
    refine pyListGet_int _ _ _ (by omega) ?_
    rw [Int.toNat_natCast]
    exact get?_take_append_replicate_self dx n i (-1) hin (by omega)
  have houtp : pyListGet
      (dx.take i ++ List.replicate (n - i) ((-1 : ℚ))) (p - 1) = .ok qp := by
    refine pyListGet_int _ _ _ (by omega) ?_
    rw [get?_take_append_replicate_lt dx n i (p - 1).toNat (-1) (by omega) (by omega)]
    exact hqp
  have hset : pyListSet (dx.take i ++ List.replicate (n - i) ((-1 : ℚ)))
      ((i : ℤ)) (qp / r) =
      .ok ((dx.take i ++ List.replicate (n - i) (-1)).set i (qp / r)) := by
    have hl : ((i : ℤ)).toNat <
        (dx.take i ++ List.replicate (n - i) ((-1 : ℚ))).length := by
      rw [Int.toNat_natCast]
      simp [List.length_take, List.length_replicate]
      omega
    have := pyListSet_int (dx.take i ++ List.replicate (n - i) ((-1 : ℚ)))
      (i : ℤ) (qp / r) (by omega) hl
    rwa [Int.toNat_natCast] at this
  rw [setDomainDxy]
  simp only [hidx]
  rw [houti]
  dsimp only
  rw [if_neg (by norm_num : ¬ ((0 : ℚ) ≤ -1)), if_neg (by simp)]
  rw [hp]
  dsimp only
  rw [houtp]
  dsimp only
  rw [if_neg (not_lt.mpr (hpos qp (List.get?_mem hqp)))]
  dsimp only
  rw [houtp]
  dsimp only
  rw [hr]
  dsimp only
  rw [hrv]
  dsimp only
  rw [if_neg hr0]
  rw [hset]
  dsimp only
  rw [set_take_replicate dx n i (qp / r) (-1) hlen hin hqi]
  simp

/-- The `_wps2wrf_dxdy` driver loop fills domains `k..n` of a consistent
per-domain list, one per iteration. -/
theorem c8_loop (parents ratios : List PyVal) (dx : List ℚ) (n fuel : ℕ)
    (hlen : dx.length = n) (hpos : ∀ q ∈ dx, 0 ≤ q)
    (hstep : ∀ i : ℕ, 1 ≤ i → i < n →
      ∃ (p : ℤ) (rv : PyVal) (r qp : ℚ),
        pyListGet parents (i : ℤ) = .ok (.int p) ∧ 1 ≤ p ∧ p ≤ (i : ℤ) ∧
        pyListGet ratios (i : ℤ) = .ok rv ∧ rv.numView = some r ∧ r ≠ 0 ∧
        dx.get? (p - 1).toNat = some qp ∧ dx.get? i = some (qp / r)) :
    ∀ (m k : ℕ), 1 ≤ k → k + m = n →
      wps2wrfLoop parents ratios fuel (List.range' k m)
        ⟨dx.take k ++ List.replicate (n - k) (-1), []⟩ = .ok ⟨dx, []⟩ := by
  intro m
  induction m with
  | zero =>
    intro k hk1 hkn
    have hkn' : k = n := by omega
    subst hkn'
    simp only [List.range']
    rw [wps2wrfLoop]
    rw [show dx.take k = dx from List.take_of_length_le (by omega)]
    simp
  | succ m ih =>
    intro k hk1 hkn
    rw [List.range'_succ]
    rw [wps2wrfLoop]
    rw [c8_step parents ratios dx n k fuel hlen hk1 (by omega) hpos
      (hstep k hk1 (by omega))]
    exact ih (k + 1) (by omega) (by omega)

/-- C8: on the synchronized subset the dx/dy transforms are mutual
inverses.  For a WRF per-domain `dx`/`dy` list of rationals that is
consistent with the WPS namelist's `parent_id`/`parent_grid_ratio`
structure (each domain past the first has an earlier parent and stores
`parent value / ratio`), converting to the WPS coarse-domain form and back
recovers the original list exactly; and applying the WRF-to-WPS transform
to that recovered list returns exactly the WPS-side coarse value the first
transform produced. -/
theorem c8_dxdy_roundtrip (s : NL) (dx : List ℚ) (n : ℕ)
    (parents ratios : List PyVal)
    (hn : 1 ≤ n)
    (hmax : maxDomains s = .ok (n : ℤ))
    (hpar : getOptValNoSect s "parent_id" none false false = .ok (.many parents))
    (hrat : getOptValNoSect s "parent_grid_ratio" none false false =
      .ok (.many ratios))
    (hlen : dx.length = n)
    (hpos : ∀ q ∈ dx, 0 ≤ q)
    (hstep : ∀ i : ℕ, 1 ≤ i → i < n →
      ∃ (p : ℤ) (rv : PyVal) (r qp : ℚ),
        pyListGet parents (i : ℤ) = .ok (.int p) ∧ 1 ≤ p ∧ p ≤ (i : ℤ) ∧
        pyListGet ratios (i : ℤ) = .ok rv ∧ rv.numView = some r ∧ r ≠ 0 ∧
        dx.get? (p - 1).toNat = some qp ∧ dx.get? i = some (qp / r)) :
    wps2wrfDxdy (wrf2wpsDxdy (dx.map PyVal.real)) s = .ok (dx.map PyVal.real) ∧
      wrf2wpsDxdy ((wps2wrfDxdy (wrf2wpsDxdy (dx.map PyVal.real)) s).toOption.getD [])
        = wrf2wpsDxdy (dx.map PyVal.real) := by
  obtain ⟨m, rfl⟩ : ∃ m, n = m + 1 := ⟨n - 1, by omega⟩
  obtain ⟨q0, hq0⟩ : ∃ q0, dx.get? 0 = some q0 := by
    cases dx with
    | nil => simp at hlen
    | cons a t => exact ⟨a, rfl⟩
  have htake1 : dx.take 1 = [q0] := by
    rw [List.take_one, ← List.get?_zero, hq0]
    rfl
  have hw2w : wrf2wpsDxdy (dx.map PyVal.real) = [.real q0] := by
    simp only [wrf2wpsDxdy, pyTakeSlice, pySliceUpper]
    rw [if_pos (by omega : (0 : ℤ) ≤ 1)]
    rw [show min ((1 : ℤ)).toNat (dx.map PyVal.real).length = 1 from by
      simp only [List.length_map, hlen]; omega]
    rw [List.take_one, ← List.get?_zero, List.get?_map, hq0]
    rfl
  have hmain : wps2wrfDxdy (wrf2wpsDxdy (dx.map PyVal.real)) s =
      .ok (dx.map PyVal.real) := by
    rw [hw2w]
    rw [wps2wrfDxdy, hmax]
    dsimp only
    rw [hpar]
    dsimp only
    rw [hrat]
    dsimp only
    rw [pyListGet_int [PyVal.real q0] 0 (.real q0) (by omega) rfl]
    dsimp only [pyFloatVal]
    rw [pyListSet_int (List.replicate ((((m : ℕ) + 1 : ℕ) : ℤ)).toNat (-1)) 0 q0
      (by omega) (by simp)]
    dsimp only
    have hout1 : (List.replicate ((((m : ℕ) + 1 : ℕ) : ℤ)).toNat ((-1 : ℚ))).set
        ((0 : ℤ)).toNat q0 = dx.take 1 ++ List.replicate ((m + 1) - 1) (-1) := by
      rw [show (((m : ℕ) + 1 : ℕ) : ℤ).toNat = m + 1 from by omega]
      rw [List.replicate_succ]
      rw [htake1]
      simp
    rw [hout1]
    rw [show (((m : ℕ) + 1 : ℕ) : ℤ).toNat = m + 1 from by omega]
    rw [List.range_eq_range', List.range'_succ]
    rw [wps2wrfLoop]
    rw [setDomainDxy_done parents ratios _ _ _ q0 (by omega)
      (by rw [show (((0 : ℕ) : ℤ) + 1 - 1).toNat = 0 from by omega]
          dsimp only
          rw [htake1]
          rfl)
      (hpos q0 (List.get?_mem hq0))]
    dsimp only
    rw [show (0 + 1 : ℕ) = 1 from rfl]
    rw [c8_loop parents ratios dx (m + 1) _ hlen hpos hstep m 1 (by omega)
      (by omega)]
  refine ⟨hmain, ?_⟩
  rw [hmain]
  rfl

/-- C8 witness: on the C8 fixture (two domains, ratio 1) the list
`dx = [1, 1]` round-trips through both transforms. -/
theorem c8_dxdy_roundtrip_witness :
    wps2wrfDxdy (wrf2wpsDxdy (([1, 1] : List ℚ).map PyVal.real)) c8NL =
        .ok (([1, 1] : List ℚ).map PyVal.real) ∧
      wrf2wpsDxdy ((wps2wrfDxdy (wrf2wpsDxdy (([1, 1] : List ℚ).map PyVal.real))
          c8NL).toOption.getD [])
        = wrf2wpsDxdy (([1, 1] : List ℚ).map PyVal.real) := by
  refine c8_dxdy_roundtrip c8NL [1, 1] 2 [.int 1, .int 1] [.int 1, .int 1]
    (by decide) (by decide) (by decide) (by decide) (by decide) (by decide) ?_
  intro i h1 h2
  have hi : i = 1 := by omega
  subst hi
  refine ⟨1, .int 1, 1, 1, by decide, by decide, by decide, by decide, by decide,
    by decide, by decide, ?_⟩
  rw [div_one]
  rfl

/-! ## Claim C9 — `set_time_period` stores components and an exact run-length
decomposition -/

/-- The `timedelta` days/HMS split recombines exactly to the total seconds:
`days*86400 + hours*3600 + minutes*60 + seconds = t`. -/
theorem c9_decomp (t : ℤ) :
    tdDays t * 86400 + (timedeltaHMS (tdSeconds t)).1 * 3600 +
      (timedeltaHMS (tdSeconds t)).2.1 * 60 + (timedeltaHMS (tdSeconds t)).2.2 = t := by
  simp only [tdDays, tdSeconds, timedeltaHMS]
  rw [Int.fmod_eq_emod t (by norm_num), Int.fdiv_eq_ediv t (by norm_num),
    Int.fdiv_eq_ediv _ (by norm_num), Int.fdiv_eq_ediv _ (by norm_num)]
  simp only [show ∀ a b : ℤ, Int.emod a b = a % b from fun _ _ => rfl]
  omega

/-- Sequential `set_opt_val` calls on distinct existing scalar integer
`time_control` fields succeed and store each value; everything else is
untouched. -/
theorem setManyTC_ok (fuel : ℕ) (fields : List (String × ℤ)) :
    ∀ (s : NL),
    (∀ nz ∈ fields, (getOpt s.opts "time_control" nz.1).isSome = true ∧
      lookupRegEntry s.registry nz.1 = .ok (scalarEntry .integer) ∧
      s.callbacks.contains nz.1 = false) →
    (fields.map Prod.fst).Nodup →
    ∃ s', setManyTC fuel s fields = .ok () s' ∧
      s'.registry = s.registry ∧ s'.callbacks = s.callbacks ∧
      s'.updateFddaEnd = s.updateFddaEnd ∧
      (∀ nz ∈ fields, getOpt s'.opts "time_control" nz.1 = some [.int nz.2]) ∧
      (∀ opt, (∀ nz ∈ fields, opt ≠ nz.1) →
        getOpt s'.opts "time_control" opt = getOpt s.opts "time_control" opt) := by
  induction fields with
  | nil =>
    intro s hf hnd
    exact ⟨s, rfl, rfl, rfl, rfl, by simp, fun opt _ => rfl⟩
  | cons nzh rest ih =>
    intro s hf hnd
    obtain ⟨name, z⟩ := nzh
    obtain ⟨hpres, hreg, hcb⟩ := hf (name, z) (List.mem_cons_self _ _)
    have hnd' : (name :: rest.map Prod.fst).Nodup := by simpa using hnd
    have hname_not : ∀ nz ∈ rest, name ≠ nz.1 := by
      intro nz hm heq
      exact (List.nodup_cons.mp hnd').1 (heq ▸ List.mem_map_of_mem Prod.fst hm)
    cases hcur : getOpt s.opts "time_control" name with
    | none => rw [hcur] at hpres; simp at hpres
    | some cur =>
    obtain ⟨sec, hsec2, hopt⟩ := getOpt_elim _ _ _ _ hcur
    have hconf : conformOptionValue s name (.scalar (.int z)) false false =
        .ok [.int z] :=
      conform_scalar_single s name (.int z) (scalarEntry .integer) hreg
        (by decide) rfl
    have hstep := setOptVal_ok_no_callback fuel s "time_control" name
      (.scalar (.int z)) false false [.int z] cur sec hsec2 hopt hconf hcb
    obtain ⟨s', hrun, hregS, hcbS, hfdS, hvals, hframe⟩ :=
      ih { s with opts := setOpt s.opts "time_control" name [.int z] }
        (by
          intro nz hm
          refine ⟨?_, (hf nz (List.mem_cons_of_mem _ hm)).2.1,
            (hf nz (List.mem_cons_of_mem _ hm)).2.2⟩
          show (getOpt (setOpt s.opts "time_control" name [.int z])
            "time_control" nz.1).isSome = true
          rw [getOpt_setOpt,
            if_neg (fun hand => hname_not nz hm hand.2.symm)]
          exact (hf nz (List.mem_cons_of_mem _ hm)).1)
        (List.nodup_cons.mp hnd').2
    refine ⟨s', ?_, hregS, hcbS, hfdS, ?_, ?_⟩
    · simp only [setManyTC]
      rw [hstep]
      exact hrun
    · intro nz hm
      rcases List.mem_cons.mp hm with h | h
      · subst h
        dsimp only
        rw [hframe name hname_not]
        show getOpt (setOpt s.opts "time_control" name [.int z])
          "time_control" name = some [.int z]
        rw [getOpt_setOpt, if_pos ⟨rfl, rfl⟩, hcur]
        rfl
      · exact hvals nz h
    · intro opt hne
      rw [hframe opt (fun nz hm => hne nz (List.mem_cons_of_mem _ hm))]
      show getOpt (setOpt s.opts "time_control" name [.int z])
        "time_control" opt = getOpt s.opts "time_control" opt
      rw [getOpt_setOpt,
        if_neg (fun hand => hne (name, z) (List.mem_cons_self _ _) hand.2)]

/-- C9: with datetime arguments over a namelist whose sixteen
`time_control` fields exist as scalar integers (and whose current period is
readable), `set_time_period` succeeds; the six start fields equal the
components of `start`, the six end fields equal the components of `end`,
and the four run-length fields form an exact decomposition of the elapsed
duration: `run_days*86400 + run_hours*3600 + run_minutes*60 + run_seconds`
equals the total seconds between `start` and `end`. -/
theorem c9_set_time_period_exact (fuel : ℕ) (s : NL) (startD endD : Date6)
    (hok : (wrfGetTimePeriod s).isOk = true)
    (hf : ∀ f ∈ (["start_year", "start_month", "start_day", "start_hour",
        "start_minute", "start_second", "end_year", "end_month", "end_day",
        "end_hour", "end_minute", "end_second", "run_days", "run_hours",
        "run_minutes", "run_seconds"] : List String),
      (getOpt s.opts "time_control" f).isSome = true ∧
      lookupRegEntry s.registry f = .ok (scalarEntry .integer) ∧
      s.callbacks.contains f = false)
    (hfdda : s.updateFddaEnd = false)
    (hle : 0 ≤ dtDiffSeconds startD endD) :
    ∃ s', wrfSetTimePeriod fuel s startD endD = .ok () s' ∧
      getOpt s'.opts "time_control" "start_year" = some [.int startD.year] ∧
      getOpt s'.opts "time_control" "start_month" = some [.int startD.month] ∧
      getOpt s'.opts "time_control" "start_day" = some [.int startD.day] ∧
      getOpt s'.opts "time_control" "start_hour" = some [.int startD.hour] ∧
      getOpt s'.opts "time_control" "start_minute" = some [.int startD.minute] ∧
      getOpt s'.opts "time_control" "start_second" = some [.int startD.second] ∧
      getOpt s'.opts "time_control" "end_year" = some [.int endD.year] ∧
      getOpt s'.opts "time_control" "end_month" = some [.int endD.month] ∧
      getOpt s'.opts "time_control" "end_day" = some [.int endD.day] ∧
      getOpt s'.opts "time_control" "end_hour" = some [.int endD.hour] ∧
      getOpt s'.opts "time_control" "end_minute" = some [.int endD.minute] ∧
      getOpt s'.opts "time_control" "end_second" = some [.int endD.second] ∧
      ∃ rd rh rm rs : ℤ,
        getOpt s'.opts "time_control" "run_days" = some [.int rd] ∧
        getOpt s'.opts "time_control" "run_hours" = some [.int rh] ∧
        getOpt s'.opts "time_control" "run_minutes" = some [.int rm] ∧
        getOpt s'.opts "time_control" "run_seconds" = some [.int rs] ∧
        rd * 86400 + rh * 3600 + rm * 60 + rs = dtDiffSeconds startD endD := by
  cases hW : wrfGetTimePeriod s with
  | error e => rw [hW] at hok; simp [Except.isOk, Except.toBool] at hok
  | ok pr =>
  obtain ⟨s', hrun, hregS, hcbS, hfdS, hvals, hframe⟩ :=
    setManyTC_ok fuel
      [("start_year", startD.year), ("start_month", startD.month),
       ("start_day", startD.day), ("start_hour", startD.hour),
       ("start_minute", startD.minute), ("start_second", startD.second),
       ("end_year", endD.year), ("end_month", endD.month),
       ("end_day", endD.day), ("end_hour", endD.hour),
       ("end_minute", endD.minute), ("end_second", endD.second),
       ("run_days", tdDays (dtDiffSeconds startD endD)),
       ("run_hours", (timedeltaHMS (tdSeconds (dtDiffSeconds startD endD))).1),
       ("run_minutes", (timedeltaHMS (tdSeconds (dtDiffSeconds startD endD))).2.1),
       ("run_seconds", (timedeltaHMS (tdSeconds (dtDiffSeconds startD endD))).2.2)]
      s
      (by
        intro nz hm
        simp only [List.mem_cons, List.not_mem_nil, or_false] at hm
        rcases hm with rfl|rfl|rfl|rfl|rfl|rfl|rfl|rfl|rfl|rfl|rfl|rfl|rfl|rfl|rfl|rfl <;>
          exact hf _ (by simp))
      (by simp only [List.map_cons, List.map_nil]; decide)
  refine ⟨s', ?_,
    hvals ("start_year", startD.year) (by simp),
    hvals ("start_month", startD.month) (by simp),
    hvals ("start_day", startD.day) (by simp),
    hvals ("start_hour", startD.hour) (by simp),
    hvals ("start_minute", startD.minute) (by simp),
    hvals ("start_second", startD.second) (by simp),
    hvals ("end_year", endD.year) (by simp),
    hvals ("end_month", endD.month) (by simp),
    hvals ("end_day", endD.day) (by simp),
    hvals ("end_hour", endD.hour) (by simp),
    hvals ("end_minute", endD.minute) (by simp),
    hvals ("end_second", endD.second) (by simp),
    tdDays (dtDiffSeconds startD endD),
    (timedeltaHMS (tdSeconds (dtDiffSeconds startD endD))).1,
    (timedeltaHMS (tdSeconds (dtDiffSeconds startD endD))).2.1,
    (timedeltaHMS (tdSeconds (dtDiffSeconds startD endD))).2.2,
    hvals ("run_days", tdDays (dtDiffSeconds startD endD)) (by simp),
    hvals ("run_hours",
      (timedeltaHMS (tdSeconds (dtDiffSeconds startD endD))).1) (by simp),
    hvals ("run_minutes",
      (timedeltaHMS (tdSeconds (dtDiffSeconds startD endD))).2.1) (by simp),
    hvals ("run_seconds",
      (timedeltaHMS (tdSeconds (dtDiffSeconds startD endD))).2.2) (by simp),
    c9_decomp (dtDiffSeconds startD endD)⟩
  simp only [wrfSetTimePeriod, hW]
  rw [hrun]
  dsimp only
  rw [hfdS, hfdda]
  rfl

/-- C9 witness: on the C9 fixture, setting the period to
2018-03-01 06:00:00 – 2018-03-02 07:30:15 stores the twelve components and
a run-length decomposition of the elapsed 91815-second-past-a-day
duration. -/
theorem c9_set_time_period_exact_witness :
    ∃ s', wrfSetTimePeriod 5 c9NL ⟨2018, 3, 1, 6, 0, 0⟩ ⟨2018, 3, 2, 7, 30, 15⟩ =
        .ok () s' ∧
      getOpt s'.opts "time_control" "start_year" = some [.int 2018] ∧
      getOpt s'.opts "time_control" "start_month" = some [.int 3] ∧
      getOpt s'.opts "time_control" "start_day" = some [.int 1] ∧
      getOpt s'.opts "time_control" "start_hour" = some [.int 6] ∧
      getOpt s'.opts "time_control" "start_minute" = some [.int 0] ∧
      getOpt s'.opts "time_control" "start_second" = some [.int 0] ∧
      getOpt s'.opts "time_control" "end_year" = some [.int 2018] ∧
      getOpt s'.opts "time_control" "end_month" = some [.int 3] ∧
      getOpt s'.opts "time_control" "end_day" = some [.int 2] ∧
      getOpt s'.opts "time_control" "end_hour" = some [.int 7] ∧
      getOpt s'.opts "time_control" "end_minute" = some [.int 30] ∧
      getOpt s'.opts "time_control" "end_second" = some [.int 15] ∧
      ∃ rd rh rm rs : ℤ,
        getOpt s'.opts "time_control" "run_days" = some [.int rd] ∧
        getOpt s'.opts "time_control" "run_hours" = some [.int rh] ∧
        getOpt s'.opts "time_control" "run_minutes" = some [.int rm] ∧
        getOpt s'.opts "time_control" "run_seconds" = some [.int rs] ∧
        rd * 86400 + rh * 3600 + rm * 60 + rs =
          dtDiffSeconds ⟨2018, 3, 1, 6, 0, 0⟩ ⟨2018, 3, 2, 7, 30, 15⟩ :=
  c9_set_time_period_exact 5 c9NL ⟨2018, 3, 1, 6, 0, 0⟩ ⟨2018, 3, 2, 7, 30, 15⟩
    (by decide) (by decide) (by decide) (by decide)

/-! ## Claim C1 — the synchronization invariant

`_sync_nl_opts` returns immediately for `priority_in=None` — the
constructor's default — and for `'no sync'`; and under the `'user'` policy
the interactive `Do not sync` answer skips reconciliation.  So the
invariant does not hold "after construction ... for every supported
resolution policy".  What does hold is the step-level guarantee under a
sticky priority: a sync step run with WRF priority leaves the WRF side
untouched and stores the WRF-to-WPS-converted value on the WPS side, after
which the transform equation holds for that option. -/

theorem pyEq_refl (v : PyVal) : pyEq v v = true := by
  cases v <;> simp [pyEq, PyVal.numView]

theorem pyEqList_refl (l : List PyVal) : pyEqList l l = true := by
  induction l with
  | nil => rfl
  | cons v t ih => simp [pyEqList, pyEq_refl, ih]

/-- C1 counterexample: on the C1 container (whose namelists disagree on
`e_we`), `_sync_nl_opts` with the constructor's default priority (`None`)
and with the `'user'` policy answered `Do not sync` both return with the
container unchanged — the mismatched `e_we` survives, violating the claimed
invariant. -/
theorem c1_sync_invariant_fails :
    syncNlOpts 5 c1C none (fun _ => .ignore) = .ok () c1C ∧
      syncNlOpts 5 c1C (some "user") (fun _ => .ignore) = .ok () c1C ∧
      getOptValNoSect c1C.wrf "e_we" none false false = .ok (.many [.int 100]) ∧
      getOptValNoSect c1C.wps "e_we" none false false = .ok (.many [.int 200]) ∧
      pyEqList (wrfoptToWpsopt "e_we" [.int 100]) [.int 200] = false := by
  refine ⟨by decide, by decide, by decide, by decide, by decide⟩

/-- C1 amended: a sync step executed under the sticky WRF priority
establishes the invariant for its option — the WRF namelist is untouched,
and afterwards the WPS-side value equals (under Python `==`) the WRF-side
value mapped through the WRF-to-WPS transform.  (The `None`/`'no sync'`
priorities and the `Do not sync` answer perform no such reconciliation.) -/
theorem c1_amended_sync_step_wrf (fuel : ℕ) (answers : ℕ → SyncChoice)
    (opt sect : String) (c : Container) (fl : SyncFlags)
    (wrfVal wpsVal cur : List PyVal) (sec : NLSection)
    (hfl : fl.wrfP = true)
    (hwrf : getOptValNoSect c.wrf opt none false false = .ok (.many wrfVal))
    (hwps : getOptValNoSect c.wps opt none false false = .ok (.many wpsVal))
    (hsect : findOptSection c.wps opt = .ok (some sect))
    (hsec : lookupA c.wps.opts sect = some sec)
    (hopt : lookupA sec opt = some cur)
    (hconf : conformOptionValue c.wps opt (.list (wrfoptToWpsopt opt wrfVal))
      false false = .ok (wrfoptToWpsopt opt wrfVal))
    (hcb : c.wps.callbacks.contains opt = false) :
    ∃ c', syncStep fuel answers opt c fl = .ok fl c' ∧
      c'.wrf = c.wrf ∧
      getOptValNoSect c'.wrf opt none false false = .ok (.many wrfVal) ∧
      ∃ wpsVal', getOptValNoSect c'.wps opt none false false = .ok (.many wpsVal') ∧
        pyEqList (wrfoptToWpsopt opt wrfVal) wpsVal' = true := by
  by_cases heq : pyEqList (wrfoptToWpsopt opt wrfVal) wpsVal = true
  · refine ⟨c, ?_, rfl, hwrf, wpsVal, hwps, heq⟩
    rw [syncStep, hwrf]
    dsimp only
    rw [hwps]
    dsimp only
    rw [if_pos heq]
  · have hcur : getOpt c.wps.opts sect opt = some cur := by
      unfold getOpt
      rw [hsec]
      exact hopt
    have hstore := setOptVal_ok_no_callback fuel c.wps sect opt
      (.list (wrfoptToWpsopt opt wrfVal)) false false
      (wrfoptToWpsopt opt wrfVal) cur sec hsec hopt hconf hcb
    refine ⟨{ c with wps :=
        { c.wps with opts := setOpt c.wps.opts sect opt (wrfoptToWpsopt opt wrfVal) } },
      ?_, rfl, hwrf, wrfoptToWpsopt opt wrfVal, ?_, pyEqList_refl _⟩
    · rw [syncStep, hwrf]
      dsimp only
      rw [hwps]
      dsimp only
      rw [if_neg heq]
      rw [show chooseNewVal c answers fl opt wrfVal wpsVal =
        .ok (some (wrfoptToWpsopt opt wrfVal, true), fl) from by
          unfold chooseNewVal; rw [if_pos hfl]]
      dsimp only
      rw [if_pos rfl]
      rw [show setOptValNoSect fuel c.wps opt
          (.list (wrfoptToWpsopt opt wrfVal)) false false =
          .ok (wrfoptToWpsopt opt wrfVal)
            { c.wps with opts := setOpt c.wps.opts sect opt (wrfoptToWpsopt opt wrfVal) }
        from by
          unfold setOptValNoSect
          rw [hsect]
          exact hstore]
    · show getOptValNoSect
        { c.wps with opts := setOpt c.wps.opts sect opt (wrfoptToWpsopt opt wrfVal) }
        opt none false false = .ok (.many (wrfoptToWpsopt opt wrfVal))
      unfold getOptValNoSect
      rw [findOptSection_setOpt c.wps sect opt (wrfoptToWpsopt opt wrfVal) opt, hsect]
      dsimp only
      unfold getOptVal
      rw [getStoredList_eq_getOpt]
      dsimp only
      rw [getOpt_setOpt, if_pos ⟨rfl, rfl⟩, hcur]
      rfl

/-- C1 amended, witness: a sync step for `e_we` on the C1 container with
sticky WRF priority stores 100 on the WPS side, establishing the
invariant for that option; and a full `_sync_nl_opts` run with
`priority_in='wrf'` leaves the container with `e_we` synchronized. -/
theorem c1_amended_sync_step_wrf_witness :
    (∃ c', syncStep 5 (fun _ => .ignore) "e_we" c1C ⟨true, false, 0⟩ =
        .ok ⟨true, false, 0⟩ c' ∧
      c'.wrf = c1C.wrf ∧
      getOptValNoSect c'.wrf "e_we" none false false = .ok (.many [.int 100]) ∧
      ∃ wpsVal', getOptValNoSect c'.wps "e_we" none false false =
          .ok (.many wpsVal') ∧
        pyEqList (wrfoptToWpsopt "e_we" [.int 100]) wpsVal' = true) ∧
    ∃ c2, syncNlOpts 5 c1C (some "wrf") (fun _ => .ignore) = .ok () c2 ∧
      getOptValNoSect c2.wrf "e_we" none false false = .ok (.many [.int 100]) ∧
      getOptValNoSect c2.wps "e_we" none false false = .ok (.many [.int 100]) := by
  constructor
  · exact c1_amended_sync_step_wrf 5 (fun _ => .ignore) "e_we" "geogrid" c1C
      ⟨true, false, 0⟩ [.int 100] [.int 200] [.int 200]
      [("max_dom", [.int 1]), ("parent_id", [.int 1]),
       ("parent_grid_ratio", [.int 1]), ("i_parent_start", [.int 1]),
       ("j_parent_start", [.int 1]), ("e_we", [.int 200]),
       ("e_sn", [.int 50]), ("dx", [.real 1]), ("dy", [.real 1])]
      (by decide) (by decide) (by decide) (by decide) (by decide) (by decide)
      (by decide) (by decide)
  · exact ⟨{ c1C with wps := { c1Wps with opts :=
      [("share",
        [("start_date", [.str "2018-01-01_00:00:00".data]),
         ("end_date", [.str "2018-01-02_00:00:00".data])]),
       ("geogrid",
        [("max_dom", [.int 1]), ("parent_id", [.int 1]),
         ("parent_grid_ratio", [.int 1]), ("i_parent_start", [.int 1]),
         ("j_parent_start", [.int 1]), ("e_we", [.int 100]),
         ("e_sn", [.int 50]), ("dx", [.real 1]), ("dy", [.real 1])])] } },
      by decide, by decide, by decide⟩

end AutoWRF
